import Mathlib

/-!
# Verification of the Bad Ukrainian Cards session/state-machine layer

A shallow embedding of the server-side game code:

* `src/server/game/engine.ts`  — round state machine (`startGame`, `dealRound`,
  `pickBlackCard`, `submitCard`, `selectWinner`, `advanceRound`, `endGame`)
* `src/server/game/room.ts`    — room store (`createRoom`, `joinRoom`, `addBot`,
  `replaceWithBot`, `updateSettings`, `getPublicPlayer`, `getPublicRoom`)
* `src/server/game/timers.ts`  — named room-scoped timers
* `src/server/game/bot.ts`     — bot scheduling
* `src/server/ws/handler.ts`   — WebSocket dispatcher (`dispatch`, `handleOpen`,
  `handleClose`)
* `src/lib/cards.ts`           — `shuffleDeck` (Fisher–Yates)

Modelling conventions:

* All functions mutate a `Room` in place in the source; here they are pure
  functions `Room → World → …` returning the updated room and world.
* The `World` holds the event-loop state the room code interacts with:
  the set of live (armed, not yet fired or cancelled) `setTimeout` callbacks,
  a counter producing fresh timer ids, the log of published WS messages, and
  the set of deleted room ids.  `setTimeout` registers a live timer and
  returns its id; `clearTimeout` removes it.  A timer callback is identified
  by an inductive `TimerTag` describing the closure armed at that call site.
* `Math.random`-based choices are parametrised by explicit random sources
  (`Nat → Nat` index pickers); `crypto.randomUUID()` results are explicit
  `String` arguments.  Where the code relies on uuid freshness, freshness is
  an explicit hypothesis.
* The deck content (`blackCards`, `whiteCards` in `src/lib/cards.ts`) is
  external library data per the specification; it is a parameter `CardEnv`.
* A thrown domain error is modelled by the `error` field of `EResult`; the
  room/world returned alongside an error are the state at the throw point,
  which keeps the JS semantics of in-place mutation before a `throw`.
-/

namespace BadCards

/-- Game phase (src/lib/types.ts `GamePhase`, plus the `hetmanPicking` state
used throughout the engine). -/
inductive GamePhase
  | lobby | dealing | hetmanPicking | submitting | judging | reveal | roundEnd | gameOver
deriving DecidableEq, Repr

/-- src/lib/types.ts `GameSettings`.  `submissionTimeLimitSec : number | null`
becomes `Option Nat`; `password : string | null` becomes `Option String`. -/
structure GameSettings where
  maxRounds : Nat
  submissionTimeLimitSec : Option Nat
  allowCustomCards : Bool
  rotateHetman : Bool
  password : Option String
deriving DecidableEq, Repr

/-- src/lib/types.ts `DEFAULT_GAME_SETTINGS`. -/
def DEFAULT_GAME_SETTINGS : GameSettings :=
  { maxRounds := 10
    submissionTimeLimitSec := none
    allowCustomCards := false
    rotateHetman := true
    password := none }

/-- src/lib/types.ts `Player`. -/
structure Player where
  id : String
  token : String
  name : String
  isBot : Bool
  isConnected : Bool
  isHost : Bool
  points : Nat
  hand : List String
deriving DecidableEq, Repr, Inhabited

/-- src/lib/types.ts `Submission`. -/
structure Submission where
  anonymousId : String
  playerId : String
  card : String
  isWinner : Bool
deriving DecidableEq, Repr

/-- src/lib/types.ts `AnonymousSubmission`. -/
structure AnonymousSubmission where
  id : String
  card : String
deriving DecidableEq, Repr

/-- src/lib/types.ts `Score`. -/
structure Score where
  playerId : String
  playerName : String
  points : Nat
deriving DecidableEq, Repr

/-- JS truthiness of `settings.submissionTimeLimitSec` (`null` and `0` are
falsy): used by `startSubmissionTimer` and `pickBlackCard`. -/
def limitSet : Option Nat → Bool
  | none => false
  | some n => n ≠ 0

/-- src/lib/types.ts `Room`.  `timers` is the named-timer registry mapping a
timer name to the armed timer's id (a JS object: at most one entry per key).
The optional `onHetmanPick` / `onDealComplete` / `onJudgingStart` callbacks
are never assigned anywhere in the program, so the engine's optional-call
sites `room.onX?.(room)` are no-ops and are not represented. -/
structure Room where
  id : String
  hostId : String
  players : List Player
  phase : GamePhase
  settings : GameSettings
  currentRound : Nat
  hetmanId : Option String
  currentBlackCard : Option String
  blackCardChoices : List String
  submissions : List Submission
  blackDeck : List String
  whiteDeck : List String
  createdAt : Nat
  lastActivityAt : Nat
  submissionDeadline : Option Nat
  timers : List (String × Nat)
deriving DecidableEq, Repr

/-- The closure armed at each `setTimeout` call site of the room code. -/
inductive TimerTag
  | inactivity
  | session
  | submission
  | reconnect (playerId : String)
  | reveal
  | advance
  | cleanup
  | botSubmit (botId : String)
  | botJudge (botId : String)
  | botPick (botId : String)
deriving DecidableEq, Repr

/-- src/lib/types.ts `PublicPlayer` (no token, no hand). -/
structure PublicPlayerV where
  id : String
  name : String
  isBot : Bool
  isConnected : Bool
  isHost : Bool
  points : Nat
  hasSubmitted : Bool
deriving DecidableEq, Repr

/-- The settings object embedded in `getPublicRoom`'s result (password
replaced by `hasPassword`). -/
structure PublicSettingsV where
  maxRounds : Nat
  submissionTimeLimitSec : Option Nat
  allowCustomCards : Bool
  rotateHetman : Bool
  hasPassword : Bool
deriving DecidableEq, Repr

/-- The object literal returned by `getPublicRoom` (src/server/game/room.ts). -/
structure PublicRoomV where
  id : String
  hostId : String
  players : List PublicPlayerV
  phase : GamePhase
  settings : PublicSettingsV
  currentRound : Nat
  hetmanId : Option String
  currentBlackCard : Option String
  submissions : List AnonymousSubmission
  revealedSubmissions : List Submission
deriving DecidableEq, Repr

/-- The `{ ...player, token: undefined }` object a connecting client receives
about itself in the initial snapshot (src/server/ws/handler.ts). -/
structure OwnPlayerV where
  id : String
  name : String
  isBot : Bool
  isConnected : Bool
  isHost : Bool
  points : Nat
  hand : List String
deriving DecidableEq, Repr

/-- Payload of an outbound WS message (src/server/ws/events.ts
`SERVER_EVENTS`, with the payload shapes used at each emit site). -/
inductive Msg
  | roomState (room : PublicRoomV)
  | roundStart (blackCard : Option String) (hetmanId : Option String) (round : Nat)
  | cardsDealt (hand : List String)
  | blackCardChoicesMsg (choices : List String)
  | blackCardPicked (blackCard : Option String)
  | submissionReceived (count : Nat)
  | allSubmitted (submissions : List AnonymousSubmission)
  | winnerSelected (submission : Submission) (playerName : String)
  | roundEndMsg (scores : List Score)
  | gameOverMsg (winner : PublicPlayerV) (scores : List Score)
  | playerJoined (player : PublicPlayerV)
  | playerReconnected (playerId : String)
  | playerDisconnected (playerId : String)
  | playerReplacedByBot (playerId botId botName : String)
  | settingsUpdated (settings : GameSettings)
  | chatMessage (playerId playerName text : String)
  | connectSnapshot (room : PublicRoomV) (myPlayer : OwnPlayerV) (myHand : List String)
  | errorMsg (code message : String)
  | pong
deriving DecidableEq, Repr

/-- A published WS message: room-wide broadcast topic or per-player private
topic (src/server/ws/broadcast.ts `broadcast` / `sendToPlayer`; direct
`ws.send` to the originating connection is modelled as a private message to
that connection's player). -/
inductive Sent
  | toRoom (roomId : String) (m : Msg)
  | toPlayer (playerId : String) (m : Msg)
deriving DecidableEq, Repr

/-- Event-loop state surrounding a room: live timers, timer-id supply,
published messages, deleted rooms, and the current clock (`Date.now()`). -/
structure World where
  now : Nat
  pending : List (Nat × TimerTag)
  nextTimerId : Nat
  events : List Sent
  roomsDeleted : List String
deriving DecidableEq, Repr

/-- Result of an operation that may throw a typed domain error.  On
`error = some code`, `room`/`world` are the state at the throw point. -/
structure EResult where
  room : Room
  world : World
  error : Option String
deriving DecidableEq, Repr

/-- External deck content (src/lib/cards.ts card lists; deck data is an
external collaborator per the specification). -/
structure CardEnv where
  blackCards : List String
  whiteCards : List String
deriving DecidableEq, Repr

-- ── src/lib/cards.ts ───────────────────────────────────────────────────────

/-- Swap two positions of a list; identity when either index is out of
bounds (mirrors the JS destructuring swap on array cells). -/
def swapL (l : List α) (i j : Nat) : List α :=
  match l.get? i, l.get? j with
  | some a, some b => (l.set i b).set j a
  | _, _ => l

/-- The Fisher–Yates loop of `shuffleDeck`: for `i` from `n-1` down to `1`,
swap position `i` with position `rand i % (i+1)` (the JS
`Math.floor(Math.random() * (i + 1))`, parametrised by `rand`). -/
def fyAux (rand : Nat → Nat) : Nat → List α → List α
  | 0, l => l
  | i + 1, l => fyAux rand i (swapL l (i + 1) (rand (i + 1) % (i + 2)))

/-- src/lib/cards.ts `shuffleDeck`. -/
def shuffleDeck (rand : Nat → Nat) (deck : List α) : List α :=
  fyAux rand (deck.length - 1) deck

-- ── Timer registry and event-loop primitives ───────────────────────────────

/-- Remove a key from the named-timer registry (`delete room.timers[key]`). -/
def timersErase (timers : List (String × Nat)) (k : String) : List (String × Nat) :=
  timers.filter (fun kv => kv.1 ≠ k)

/-- Overwrite a key in the registry (`room.timers[key] = id`). -/
def timersSet (timers : List (String × Nat)) (k : String) (id : Nat) : List (String × Nat) :=
  timersErase timers k ++ [(k, id)]

/-- `clearTimeout(id)`: the timer with this id is no longer live. -/
def clearTimeoutW (w : World) (id : Nat) : World :=
  { w with pending := w.pending.filter (fun t => t.1 ≠ id) }

/-- `setTimeout(cb, delay)`: arm a live timer with a fresh id, returning the
id.  The delay does not affect any property proved here and is not kept. -/
def setTimeoutW (w : World) (tag : TimerTag) : Nat × World :=
  (w.nextTimerId,
   { w with pending := w.pending ++ [(w.nextTimerId, tag)]
            nextTimerId := w.nextTimerId + 1 })

/-- `broadcast(roomId, event, payload)` (src/server/ws/broadcast.ts). -/
def emitRoom (w : World) (roomId : String) (m : Msg) : World :=
  { w with events := w.events ++ [Sent.toRoom roomId m] }

/-- `sendToPlayer(playerId, event, payload)` (src/server/ws/broadcast.ts). -/
def emitPlayer (w : World) (playerId : String) (m : Msg) : World :=
  { w with events := w.events ++ [Sent.toPlayer playerId m] }

-- ── src/server/game/timers.ts ──────────────────────────────────────────────

/-- `clearTimer(room, key)`. -/
def clearTimer (room : Room) (w : World) (k : String) : Room × World :=
  match room.timers.lookup k with
  | some id => ({ room with timers := timersErase room.timers k }, clearTimeoutW w id)
  | none => (room, w)

/-- `resetInactivityTimer`: clear then arm the `"inactivity"` timer whose
callback ends the game for inactivity. -/
def resetInactivityTimer (room : Room) (w : World) : Room × World :=
  let (room, w) := clearTimer room w "inactivity"
  let (id, w) := setTimeoutW w .inactivity
  ({ room with timers := timersSet room.timers "inactivity" id }, w)

/-- `startSessionTimer`. -/
def startSessionTimer (room : Room) (w : World) : Room × World :=
  let (room, w) := clearTimer room w "session"
  let (id, w) := setTimeoutW w .session
  ({ room with timers := timersSet room.timers "session" id }, w)

/-- `startSubmissionTimer`: clear, then arm only when
`settings.submissionTimeLimitSec` is truthy. -/
def startSubmissionTimer (room : Room) (w : World) : Room × World :=
  let rw := clearTimer room w "submission"
  if limitSet room.settings.submissionTimeLimitSec then
    let (id, w2) := setTimeoutW rw.2 .submission
    ({ rw.1 with timers := timersSet rw.1.timers "submission" id }, w2)
  else rw

/-- `cancelSubmissionTimer`. -/
def cancelSubmissionTimer (room : Room) (w : World) : Room × World :=
  clearTimer room w "submission"

/-- `startReconnectTimer(room, playerId, onExpire)`. -/
def startReconnectTimer (room : Room) (w : World) (playerId : String) : Room × World :=
  let k := "reconnect:" ++ playerId
  let (room, w) := clearTimer room w k
  let (id, w) := setTimeoutW w (.reconnect playerId)
  ({ room with timers := timersSet room.timers k id }, w)

/-- `cancelReconnectTimer(room, playerId)`. -/
def cancelReconnectTimer (room : Room) (w : World) (playerId : String) : Room × World :=
  clearTimer room w ("reconnect:" ++ playerId)

/-- `clearAllTimers(room)`: `clearTimeout` every registry value, then reset
the registry. -/
def clearAllTimers (room : Room) (w : World) : Room × World :=
  ({ room with timers := [] },
   room.timers.foldl (fun w kv => clearTimeoutW w kv.2) w)

-- ── src/server/game/room.ts ────────────────────────────────────────────────

/-- `RoomError` codes and engine `Error` messages (all typed domain errors). -/
def ROOM_NOT_FOUND : String := "ROOM_NOT_FOUND"

/-- `makePlayer(name, isHost, isBot)`; the two `randomUUID()` results are the
explicit `idU`/`tokenU` arguments. -/
def makePlayer (idU tokenU : String) (name : String) (isHost : Bool)
    (isBot : Bool := false) : Player :=
  { id := idU
    token := tokenU
    name := name
    isBot := isBot
    isConnected := isBot
    isHost := isHost
    points := 0
    hand := [] }

/-- `createRoom(hostName, settings)`.  The TS merges a partial settings
object over `DEFAULT_GAME_SETTINGS`; the already-merged result is the
`settings` argument here.  `roomId` stands for the generated collision-free
room code and `idU`/`tokenU` for the host's `randomUUID()` results. -/
def createRoom (env : CardEnv) (roomId idU tokenU : String) (hostName : String)
    (settings : GameSettings) (now : Nat) : Room × Player :=
  let host := makePlayer idU tokenU
    (if hostName.trim = "" then "Host" else hostName.trim) true
  let room : Room :=
    { id := roomId
      hostId := host.id
      players := [host]
      phase := .lobby
      settings := settings
      currentRound := 0
      hetmanId := none
      currentBlackCard := none
      blackCardChoices := []
      submissions := []
      blackDeck := env.blackCards
      whiteDeck := env.whiteCards
      createdAt := now
      lastActivityAt := now
      submissionDeadline := none
      timers := [] }
  (room, host)

/-- `joinRoom` (single-room model: the room-code lookup already resolved to
`room`).  `password?: string` is `Option String`. -/
def joinRoom (idU tokenU : String) (room : Room) (w : World)
    (playerName : String) (password : Option String) : EResult :=
  if room.phase ≠ .lobby then ⟨room, w, some "GAME_ALREADY_STARTED"⟩
  else if room.players.length ≥ 10 then ⟨room, w, some "ROOM_FULL"⟩
  else if (room.settings.password.getD "" ≠ "") ∧ room.settings.password ≠ password then
    ⟨room, w, some "WRONG_PASSWORD"⟩
  else
    let player := makePlayer idU tokenU
      (if playerName.trim = "" then "Player" else playerName.trim) false
    ⟨{ room with players := room.players ++ [player], lastActivityAt := w.now }, w, none⟩

/-- `addBot(room)`. -/
def addBot (idU tokenU : String) (room : Room) (w : World) : EResult :=
  if room.players.length ≥ 10 then ⟨room, w, some "ROOM_FULL"⟩
  else
    let botNum := (room.players.filter (fun p => p.isBot)).length + 1
    let bot := makePlayer idU tokenU ("Бот #" ++ toString botNum ++ " (ШІ)") false true
    ⟨{ room with players := room.players ++ [bot] }, w, none⟩

/-- The `name.replace(/ \(ШІ\)$/, "")` of `replaceWithBot`. -/
def stripBotSuffix (s : String) : String :=
  if s.endsWith " (ШІ)" then s.dropRight 5 else s

/-- Update the first list element satisfying `p` (JS mutation of the object
returned by `Array.prototype.find`). -/
def updateFirst (p : α → Bool) (f : α → α) : List α → List α
  | [] => []
  | a :: as => if p a then f a :: as else a :: updateFirst p f as

/-- `replaceWithBot(room, playerId)`: replace the seat with a bot that keeps
points and hand, migrate host/hetman roles.  `idU`/`tokenU` are the bot's
fresh `randomUUID()` results. -/
def replaceWithBot (idU tokenU : String) (room : Room) (w : World)
    (playerId : String) : EResult × Option Player :=
  match room.players.findIdx? (fun p => p.id = playerId) with
  | none => (⟨room, w, some ROOM_NOT_FOUND⟩, none)
  | some idx =>
    let oldPlayer := (room.players.get? idx).getD default
    let bot : Player :=
      { oldPlayer with
          id := idU
          token := tokenU
          name := stripBotSuffix oldPlayer.name ++ " (ШІ)"
          isBot := true
          isConnected := true
          isHost := false }
    let (players, hostId) :=
      if oldPlayer.isHost then
        match room.players.find? (fun p => ¬ p.isBot ∧ p.id ≠ playerId) with
        | some nextHuman =>
          (updateFirst (fun p => ¬ p.isBot ∧ p.id ≠ playerId)
            (fun p => { p with isHost := true }) room.players, nextHuman.id)
        | none => (room.players, room.hostId)
      else (room.players, room.hostId)
    let hetmanId := if room.hetmanId = some playerId then some bot.id else room.hetmanId
    (⟨{ room with
        players := players.set idx bot
        hostId := hostId
        hetmanId := hetmanId }, w, none⟩, some bot)

/-- `updateSettings(room, patch)`: the TS spreads `patch` over the settings;
the merged result is the argument here. -/
def updateSettings (room : Room) (merged : GameSettings) : Room :=
  { room with settings := merged }

/-- `getPublicPlayer(player, submittedIds)`. -/
def getPublicPlayer (player : Player) (submittedIds : List String) : PublicPlayerV :=
  { id := player.id
    name := player.name
    isBot := player.isBot
    isConnected := player.isConnected
    isHost := player.isHost
    points := player.points
    hasSubmitted := submittedIds.contains player.id }

/-- `getPublicRoom(room)`. -/
def getPublicRoom (room : Room) : PublicRoomV :=
  let submittedIds := room.submissions.map (fun s => s.playerId)
  let showFull :=
    room.phase = .reveal ∨ room.phase = .roundEnd ∨ room.phase = .gameOver
  { id := room.id
    hostId := room.hostId
    players := room.players.map (fun p => getPublicPlayer p submittedIds)
    phase := room.phase
    settings :=
      { maxRounds := room.settings.maxRounds
        submissionTimeLimitSec := room.settings.submissionTimeLimitSec
        allowCustomCards := room.settings.allowCustomCards
        rotateHetman := room.settings.rotateHetman
        hasPassword := room.settings.password ≠ none }
    currentRound := room.currentRound
    hetmanId := room.hetmanId
    currentBlackCard := room.currentBlackCard
    submissions := room.submissions.map (fun s => ⟨s.anonymousId, s.card⟩)
    revealedSubmissions := if showFull then room.submissions else [] }

-- ── src/server/game/engine.ts ──────────────────────────────────────────────

def HAND_SIZE : Nat := 10

def MIN_PLAYERS : Nat := 3

def BLACK_CARD_CHOICES : Nat := 4

/-- `computeScores(room)`: map to scores, then stable sort descending by
points (`sort((a, b) => b.points - a.points)`; JS array sort is stable). -/
def computeScores (room : Room) : List Score :=
  (room.players.map (fun p => ⟨p.id, p.name, p.points⟩ : Player → Score)).mergeSort
    (fun a b => b.points ≤ a.points)

/-- `getSubmitters(room)`: ids of every player other than the hetman. -/
def getSubmitters (room : Room) : List String :=
  (room.players.filter (fun p => some p.id ≠ room.hetmanId)).map (fun p => p.id)

/-- `refillDeck(deck, source)`: reshuffle a fresh copy of the source only
when the deck is empty. -/
def refillDeck (rand : Nat → Nat) (deck source : List String) : List String :=
  if deck.length = 0 then shuffleDeck rand source else deck

/-- `broadcastRoomState(room)`. -/
def broadcastRoomState (room : Room) (w : World) : World :=
  emitRoom w room.id (.roomState (getPublicRoom room))

/-- `startGame(room)`.  `randB`/`randW` feed the two `shuffleDeck` calls. -/
def startGame (env : CardEnv) (randB randW : Nat → Nat) (room : Room)
    (w : World) : EResult :=
  if room.players.length < MIN_PLAYERS then ⟨room, w, some "NOT_ENOUGH_PLAYERS"⟩
  else if room.phase ≠ .lobby then ⟨room, w, some "GAME_ALREADY_STARTED"⟩
  else
    let room := { room with
      blackDeck := shuffleDeck randB env.blackCards
      whiteDeck := shuffleDeck randW env.whiteCards
      currentRound := 0
      hetmanId := some room.hostId }
    let (room, w) := startSessionTimer room w
    let (room, w) := resetInactivityTimer room w
    ⟨room, w, none⟩

/-- The hand-refill loop of `dealRound`: each player in order draws
`HAND_SIZE - hand.length` cards from the white deck (fewer if the deck runs
out; nothing when the hand is already full). -/
def refillHands : List Player → List String → List Player × List String
  | [], deck => ([], deck)
  | p :: ps, deck =>
    let needed := HAND_SIZE - p.hand.length
    let p := { p with hand := p.hand ++ deck.take needed }
    let (ps, deck) := refillHands ps (deck.drop needed)
    (p :: ps, deck)

/-- `dealRound(room)`. -/
def dealRound (env : CardEnv) (randW randB : Nat → Nat) (room : Room)
    (w : World) : Room × World :=
  let room := { room with
    currentRound := room.currentRound + 1
    phase := GamePhase.hetmanPicking
    submissions := []
    currentBlackCard := none
    blackCardChoices := [] }
  let room := { room with whiteDeck := refillDeck randW room.whiteDeck env.whiteCards }
  let (players, whiteDeck) := refillHands room.players room.whiteDeck
  let room := { room with players := players, whiteDeck := whiteDeck }
  let blackDeck := refillDeck randB room.blackDeck env.blackCards
  let drawCount := min BLACK_CARD_CHOICES blackDeck.length
  let room := { room with
    blackCardChoices := blackDeck.take drawCount
    blackDeck := blackDeck.drop drawCount }
  let w := emitRoom w room.id (.roundStart none room.hetmanId room.currentRound)
  let w := room.players.foldl
    (fun w p => emitPlayer w p.id (.cardsDealt p.hand)) w
  let w := match room.hetmanId with
    | some h => emitPlayer w h (.blackCardChoicesMsg room.blackCardChoices)
    | none => w
  let w := broadcastRoomState room w
  -- room.onHetmanPick?.(room): never assigned in the program, a no-op.
  (room, w)

/-- `pickBlackCard(room, hetmanId, card)`. -/
def pickBlackCard (room : Room) (w : World) (hetmanId card : String) : EResult :=
  if room.phase ≠ .hetmanPicking then ⟨room, w, some "NOT_HETMAN_PICKING_PHASE"⟩
  else if some hetmanId ≠ room.hetmanId then ⟨room, w, some "NOT_HETMAN"⟩
  else if ¬ room.blackCardChoices.contains card then
    ⟨room, w, some "CARD_NOT_IN_CHOICES"⟩
  else
    let idx := room.blackCardChoices.indexOf card
    let unused := room.blackCardChoices.eraseIdx idx
    let room := { room with
      currentBlackCard := some card
      blackDeck := room.blackDeck ++ unused
      blackCardChoices := []
      phase := GamePhase.submitting
      submissionDeadline :=
        if limitSet room.settings.submissionTimeLimitSec then
          some (w.now + room.settings.submissionTimeLimitSec.getD 0 * 1000)
        else none }
    let (room, w) := startSubmissionTimer room w
    let w := emitRoom w room.id (.blackCardPicked room.currentBlackCard)
    let w := broadcastRoomState room w
    -- room.onDealComplete?.(room): never assigned in the program, a no-op.
    ⟨room, w, none⟩

/-- `submitCard(room, playerId, card)`.  `uuid` is the submission's
`randomUUID()` and `shufR` feeds the `shuffleDeck` of the anonymized
submission set on completion. -/
def submitCard (uuid : String) (shufR : Nat → Nat) (room : Room) (w : World)
    (playerId card : String) : EResult :=
  if room.phase ≠ .submitting then ⟨room, w, some "NOT_SUBMITTING_PHASE"⟩
  else
    match room.players.find? (fun p => p.id = playerId) with
    | none => ⟨room, w, some "PLAYER_NOT_FOUND"⟩
    | some player =>
      if some playerId = room.hetmanId then ⟨room, w, some "HETMAN_CANNOT_SUBMIT"⟩
      else if room.submissions.any (fun s => s.playerId = playerId) then
        ⟨room, w, some "ALREADY_SUBMITTED"⟩
      else if ¬ player.hand.contains card then ⟨room, w, some "CARD_NOT_IN_HAND"⟩
      else
        let room := { room with
          players := updateFirst (fun p => p.id = playerId)
            (fun p => { p with hand := p.hand.erase card }) room.players
          submissions := room.submissions ++
            [{ anonymousId := uuid, playerId := playerId, card := card, isWinner := false }] }
        let w := emitRoom w room.id (.submissionReceived room.submissions.length)
        let submitters := getSubmitters room
        let allSubmitted := submitters.all
          (fun id => room.submissions.any (fun s => s.playerId = id))
        if allSubmitted then
          let (room, w) := cancelSubmissionTimer room w
          let room := { room with
            phase := GamePhase.judging
            submissionDeadline := none }
          let shuffled := shuffleDeck shufR
            (room.submissions.map (fun s => (⟨s.anonymousId, s.card⟩ : AnonymousSubmission)))
          let w := emitRoom w room.id (.allSubmitted shuffled)
          let w := broadcastRoomState room w
          -- room.onJudgingStart?.(room): never assigned in the program, a no-op.
          ⟨room, w, none⟩
        else
          ⟨room, broadcastRoomState room w, none⟩

/-- `selectWinner(room, hetmanId, submissionAnonymousId)`. -/
def selectWinner (room : Room) (w : World)
    (hetmanId submissionAnonymousId : String) : EResult :=
  if room.phase ≠ .judging then ⟨room, w, some "NOT_JUDGING_PHASE"⟩
  else if some hetmanId ≠ room.hetmanId then ⟨room, w, some "NOT_HETMAN"⟩
  else
    match room.submissions.find? (fun s => s.anonymousId = submissionAnonymousId) with
    | none => ⟨room, w, some "SUBMISSION_NOT_FOUND"⟩
    | some submission =>
      let winner := room.players.find? (fun p => p.id = submission.playerId)
      let room := { room with
        players := updateFirst (fun p => p.id = submission.playerId)
          (fun p => { p with points := p.points + 1 }) room.players
        submissions := updateFirst (fun s => s.anonymousId = submissionAnonymousId)
          (fun s => { s with isWinner := true }) room.submissions
        phase := GamePhase.reveal }
      let w := emitRoom w room.id
        (.winnerSelected { submission with isWinner := true }
          ((winner.map (fun p => p.name)).getD "Unknown"))
      let w := broadcastRoomState room w
      let (tid, w) := setTimeoutW w .reveal
      let room := { room with timers := timersSet room.timers "reveal" tid }
      ⟨room, w, none⟩

/-- `endGame(room, reason)`. -/
def endGame (room : Room) (w : World)
    (_reason : String) : Room × World :=
  if room.phase = .gameOver then (room, w)
  else
    let (room, w) := clearAllTimers room w
    let room := { room with phase := GamePhase.gameOver }
    let scores := computeScores room
    let topScore := ((scores.head?).map (fun s => s.points)).getD 0
    let winners := room.players.filter (fun p => p.points = topScore)
    match winners.head?.orElse (fun _ => room.players.head?) with
    | none => (room, { w with roomsDeleted := w.roomsDeleted ++ [room.id] })
    | some winnerPlayer =>
      let publicWinner :=
        getPublicPlayer winnerPlayer (room.submissions.map (fun s => s.playerId))
      let w := emitRoom w room.id (.gameOverMsg publicWinner scores)
      let w := broadcastRoomState room w
      let (tid, w) := setTimeoutW w .cleanup
      ({ room with timers := timersSet room.timers "cleanup" tid }, w)

/-- `advanceRound(room)`: end the game at the round limit, otherwise rotate
the hetman in the live seat order (when enabled) and deal the next round.
`players[(currentIdx + 1) % players.length]` with `findIndex` returning `-1`
maps a missing hetman to seat 0; the source would fault on an empty player
array, an unreachable state (rooms always hold the host), modelled by
leaving `hetmanId` unchanged. -/
def advanceRound (env : CardEnv) (randW randB : Nat → Nat) (room : Room)
    (w : World) : Room × World :=
  if room.currentRound ≥ room.settings.maxRounds then
    endGame room w "rounds_complete"
  else
    let room :=
      if room.settings.rotateHetman then
        let currentIdx :=
          ((room.players.findIdx? (fun p => some p.id = room.hetmanId)).map
            (fun i => i + 1)).getD 0
        match room.players.get? (currentIdx % room.players.length) with
        | some p => { room with hetmanId := some p.id }
        | none => room
      else room
    dealRound env randW randB room w

-- ── Timer callbacks ────────────────────────────────────────────────────────
-- Each timer wrapper in timers.ts / engine.ts starts its callback with
-- `delete room.timers[key]`; firing also consumes the live timer.

/-- Remove a fired timer from the live set and its key from the registry. -/
def fireCommon (room : Room) (w : World) (key : String) (id : Nat) : Room × World :=
  ({ room with timers := timersErase room.timers key }, clearTimeoutW w id)

/-- The forced-submission loop armed by `pickBlackCard`: for each
not-yet-submitted eligible player with a nonempty hand, submit a uniformly
random hand card.  `uuid k` / `shufR k` / `pickR k` supply the randomness of
iteration `k`; an uncaught `submitCard` throw aborts the loop. -/
def forceSubmitLoop (uuid : Nat → String) (shufR : Nat → Nat → Nat)
    (pickR : Nat → Nat) : List String → Nat → Room → World → Room × World
  | [], _, room, w => (room, w)
  | playerId :: rest, k, room, w =>
    match room.players.find? (fun p => p.id = playerId) with
    | none => forceSubmitLoop uuid shufR pickR rest (k + 1) room w
    | some player =>
      if room.submissions.any (fun s => s.playerId = playerId) then
        forceSubmitLoop uuid shufR pickR rest (k + 1) room w
      else if player.hand.length > 0 then
        let randomCard := (player.hand.get? (pickR k % player.hand.length)).getD ""
        let res := submitCard (uuid k) (shufR k) room w playerId randomCard
        match res.error with
        | some _ => (res.room, res.world)
        | none => forceSubmitLoop uuid shufR pickR rest (k + 1) res.room res.world
      else forceSubmitLoop uuid shufR pickR rest (k + 1) room w

/-- Firing of the `"submission"` timer (the closure armed in
`pickBlackCard`). -/
def fireSubmissionTimer (uuid : Nat → String) (shufR : Nat → Nat → Nat)
    (pickR : Nat → Nat) (room : Room) (w : World) (id : Nat) : Room × World :=
  let (room, w) := fireCommon room w "submission" id
  let room := { room with submissionDeadline := none }
  forceSubmitLoop uuid shufR pickR (getSubmitters room) 0 room w

/-- Firing of the `"reveal"` timer armed in `selectWinner`: phase to
`roundEnd`, broadcast scores, arm the `"advance"` timer. -/
def fireRevealTimer (room : Room) (w : World) (id : Nat) : Room × World :=
  let (room, w) := fireCommon room w "reveal" id
  let room := { room with phase := GamePhase.roundEnd }
  let w := emitRoom w room.id (.roundEndMsg (computeScores room))
  let w := broadcastRoomState room w
  let (tid, w) := setTimeoutW w .advance
  ({ room with timers := timersSet room.timers "advance" tid }, w)

/-- Firing of the `"advance"` timer: advance the round. -/
def fireAdvanceTimer (env : CardEnv) (randW randB : Nat → Nat) (room : Room)
    (w : World) (id : Nat) : Room × World :=
  let (room, w) := fireCommon room w "advance" id
  advanceRound env randW randB room w

/-- Firing of the `"inactivity"` timer: end the game for inactivity. -/
def fireInactivityTimer (room : Room) (w : World) (id : Nat) : Room × World :=
  let (room, w) := fireCommon room w "inactivity" id
  endGame room w "inactivity"

/-- Firing of the `"session"` timer: end the game for the time limit. -/
def fireSessionTimer (room : Room) (w : World) (id : Nat) : Room × World :=
  let (room, w) := fireCommon room w "session" id
  endGame room w "time_limit"

/-- Firing of the `"cleanup"` timer armed by `endGame`: delete the room. -/
def fireCleanupTimer (room : Room) (w : World) (id : Nat) : Room × World :=
  let (room, w) := fireCommon room w "cleanup" id
  (room, { w with roomsDeleted := w.roomsDeleted ++ [room.id] })

-- ── src/server/game/bot.ts ─────────────────────────────────────────────────

/-- `scheduleBotTurn(room, botId)`: always arms a new timer for the bot's
submission (the source has no already-armed guard here; the registry entry
is overwritten while a previously armed timer stays live). -/
def scheduleBotTurn (room : Room) (w : World) (botId : String) : Room × World :=
  let (id, w) := setTimeoutW w (.botSubmit botId)
  ({ room with timers := timersSet room.timers ("bot_submit:" ++ botId) id }, w)

/-- `scheduleBotHetmanTurn(room, botId)`: a no-op when already scheduled. -/
def scheduleBotHetmanTurn (room : Room) (w : World) (botId : String) : Room × World :=
  if (room.timers.lookup ("bot_judge:" ++ botId)).isSome then (room, w)
  else
    let (id, w) := setTimeoutW w (.botJudge botId)
    ({ room with timers := timersSet room.timers ("bot_judge:" ++ botId) id }, w)

/-- The player loop of `scheduleBotActionsAfterDeal`: schedule a submit turn
for every bot seat other than the hetman. -/
def botsAfterDealLoop : List Player → Room → World → Room × World
  | [], room, w => (room, w)
  | p :: ps, room, w =>
    if p.isBot ∧ some p.id ≠ room.hetmanId then
      let (room, w) := scheduleBotTurn room w p.id
      botsAfterDealLoop ps room w
    else botsAfterDealLoop ps room w

/-- `scheduleBotActionsAfterDeal(room)`. -/
def scheduleBotActionsAfterDeal (room : Room) (w : World) : Room × World :=
  botsAfterDealLoop room.players room w

/-- `scheduleBotBlackCardPick(room, botId)`: a no-op when already scheduled. -/
def scheduleBotBlackCardPick (room : Room) (w : World) (botId : String) : Room × World :=
  if (room.timers.lookup ("bot_pick:" ++ botId)).isSome then (room, w)
  else
    let (id, w) := setTimeoutW w (.botPick botId)
    ({ room with timers := timersSet room.timers ("bot_pick:" ++ botId) id }, w)

/-- Firing of a `bot_submit:` timer: re-validate, then submit a random hand
card; thrown errors are swallowed. -/
def fireBotSubmitTimer (uuid : String) (shufR : Nat → Nat) (pickR : Nat)
    (room : Room) (w : World) (botId : String) (id : Nat) : Room × World :=
  let (room, w) := fireCommon room w ("bot_submit:" ++ botId) id
  if room.phase ≠ .submitting then (room, w)
  else if room.submissions.any (fun s => s.playerId = botId) then (room, w)
  else
    match room.players.find? (fun p => p.id = botId) with
    | none => (room, w)
    | some bot =>
      if ¬ bot.isBot then (room, w)
      else
        match bot.hand.get? (pickR % bot.hand.length) with
        | none => (room, w)
        | some card =>
          let res := submitCard uuid shufR room w botId card
          (res.room, res.world)

/-- Firing of a `bot_judge:` timer: re-validate, then pick a random
submission as the winner; thrown errors are swallowed. -/
def fireBotJudgeTimer (pickR : Nat) (room : Room) (w : World) (botId : String)
    (id : Nat) : Room × World :=
  let (room, w) := fireCommon room w ("bot_judge:" ++ botId) id
  if room.phase ≠ .judging then (room, w)
  else if room.hetmanId ≠ some botId then (room, w)
  else
    match room.submissions.get? (pickR % room.submissions.length) with
    | none => (room, w)
    | some submission =>
      let res := selectWinner room w botId submission.anonymousId
      (res.room, res.world)

/-- Firing of a `bot_pick:` timer: re-validate, then pick a random offered
black card; thrown errors are swallowed. -/
def fireBotPickTimer (pickR : Nat) (room : Room) (w : World) (botId : String)
    (id : Nat) : Room × World :=
  let (room, w) := fireCommon room w ("bot_pick:" ++ botId) id
  if room.phase ≠ .hetmanPicking then (room, w)
  else if room.hetmanId ≠ some botId then (room, w)
  else if room.blackCardChoices.length = 0 then (room, w)
  else
    match room.blackCardChoices.get? (pickR % room.blackCardChoices.length) with
    | none => (room, w)
    | some card =>
      let res := pickBlackCard room w botId card
      (res.room, res.world)

-- ── src/server/ws/handler.ts ───────────────────────────────────────────────

/-- `{ ...player, token: undefined }`. -/
def ownView (p : Player) : OwnPlayerV :=
  { id := p.id, name := p.name, isBot := p.isBot, isConnected := p.isConnected
    isHost := p.isHost, points := p.points, hand := p.hand }

/-- `handleOpen(ws)` (single-room model: the socket's `roomId` equals
`room.id`).  Returns `none` as third component when the connection is closed
with the 4001 auth-failure code, `some ()`-like success otherwise. -/
def handleOpen (room : Room) (w : World) (token : String) :
    Room × World × Bool :=
  match room.players.find? (fun p => p.token = token) with
  | none => (room, w, false)  -- ws.close(4001, "Invalid token or room")
  | some player =>
    let wasDisconnected := ¬ player.isConnected
    let room := { room with
      players := updateFirst (fun p => p.token = token)
        (fun p => { p with isConnected := true }) room.players }
    let (room, w) := cancelReconnectTimer room w player.id
    let w := emitPlayer w player.id
      (.connectSnapshot (getPublicRoom room) (ownView { player with isConnected := true })
        player.hand)
    let w :=
      if wasDisconnected then
        emitRoom w room.id (.playerReconnected player.id)
      else broadcastRoomState room w
    let room := { room with lastActivityAt := w.now }
    let (room, w) := resetInactivityTimer room w
    (room, w, true)

/-- `handleClose(ws)`. -/
def handleClose (room : Room) (w : World) (playerId : String) : Room × World :=
  if w.roomsDeleted.contains room.id then (room, w)
  else
    match room.players.find? (fun p => p.id = playerId) with
    | none => (room, w)
    | some player =>
      if player.isBot then (room, w)
      else
        let room := { room with
          players := updateFirst (fun p => p.id = playerId)
            (fun p => { p with isConnected := false }) room.players }
        let w := emitRoom w room.id (.playerDisconnected playerId)
        let w := broadcastRoomState room w
        if room.phase ≠ .lobby ∧ room.phase ≠ .gameOver then
          startReconnectTimer room w playerId
        else (room, w)

/-- Firing of a `reconnect:` grace timer (the closure armed in
`handleClose`): re-validate, replace the seat with a bot, resume bot
scheduling when the round is collecting submissions.  `idU`/`tokU` are the
bot's fresh uuids. -/
def fireReconnectTimer (idU tokU : String) (room : Room) (w : World)
    (playerId : String) (id : Nat) : Room × World :=
  let (room, w) := fireCommon room w ("reconnect:" ++ playerId) id
  if w.roomsDeleted.contains room.id then (room, w)
  else
    match room.players.find? (fun p => p.id = playerId) with
    | none => (room, w)
    | some currentPlayer =>
      if currentPlayer.isConnected then (room, w)
      else
        match replaceWithBot idU tokU room w playerId with
        | (res, none) => (res.room, res.world)  -- catch: ignore
        | (res, some bot) =>
          if res.error.isSome then (res.room, res.world)
          else
            let room := res.room
            let w := emitRoom res.world room.id
              (.playerReplacedByBot playerId bot.id bot.name)
            let w := broadcastRoomState room w
            if room.phase = .submitting ∧ some bot.id ≠ room.hetmanId then
              scheduleBotActionsAfterDeal room w
            else (room, w)

/-- The decoded inbound payload: which fields the client supplied
(`assertPayload` checks field presence before the cast). -/
inductive ClientPayload
  | empty
  | cardField (card : String)
  | submissionIdField (submissionId : String)
  | targetPlayerIdField (targetPlayerId : String)
  | settingsField (merged : GameSettings)
  | textField (text : String)
deriving DecidableEq, Repr

/-- The randomness / fresh-uuid supply consumed by the branches of
`dispatch`. -/
structure DispatchRands where
  idU : String
  tokU : String
  sgRandB : Nat → Nat
  sgRandW : Nat → Nat
  drRandW : Nat → Nat
  drRandB : Nat → Nat
  subUuid : String
  subShufR : Nat → Nat

/-- `dispatch(ws, room, playerId, event, payload)` (src/server/ws/handler.ts).
Unknown events answer with a non-fatal structured error on the caller's
connection; domain errors thrown by the store/engine surface in `error`. -/
def dispatch (env : CardEnv) (rnd : DispatchRands) (room : Room) (w : World)
    (playerId : String) (event : String) (payload : ClientPayload) : EResult :=
  if event = "ping" then
    ⟨room, emitPlayer w playerId .pong, none⟩
  else if event = "start_game" then
    if room.hostId ≠ playerId then ⟨room, w, some "NOT_HOST"⟩
    else
      let res := startGame env rnd.sgRandB rnd.sgRandW room w
      match res.error with
      | some e => ⟨res.room, res.world, some e⟩
      | none =>
        let (room, w) := dealRound env rnd.drRandW rnd.drRandB res.room res.world
        let (room, w) := scheduleBotActionsAfterDeal room w
        ⟨room, broadcastRoomState room w, none⟩
  else if event = "add_bot" then
    if room.hostId ≠ playerId then ⟨room, w, some "NOT_HOST"⟩
    else if room.phase ≠ .lobby then ⟨room, w, some "GAME_ALREADY_STARTED"⟩
    else
      let res := addBot rnd.idU rnd.tokU room w
      match res.error with
      | some e => ⟨res.room, res.world, some e⟩
      | none => ⟨res.room, broadcastRoomState res.room res.world, none⟩
  else if event = "remove_player" then
    if room.hostId ≠ playerId then ⟨room, w, some "NOT_HOST"⟩
    else
      match payload with
      | .targetPlayerIdField targetPlayerId =>
        if targetPlayerId = playerId then ⟨room, w, some "NOT_HOST"⟩
        else
          match replaceWithBot rnd.idU rnd.tokU room w targetPlayerId with
          | (res, none) => ⟨res.room, res.world, res.error⟩
          | (res, some bot) =>
            if res.error.isSome then ⟨res.room, res.world, res.error⟩
            else
              let room := res.room
              let w := emitRoom res.world room.id
                (.playerReplacedByBot targetPlayerId bot.id bot.name)
              let w := broadcastRoomState room w
              let (room, w) :=
                if room.phase = .submitting ∧ some bot.id ≠ room.hetmanId then
                  scheduleBotActionsAfterDeal room w
                else (room, w)
              let (room, w) :=
                if room.phase = .judging ∧ room.hetmanId = some bot.id then
                  scheduleBotHetmanTurn room w bot.id
                else (room, w)
              ⟨room, w, none⟩
      | _ => ⟨room, w, some "INVALID_PAYLOAD"⟩
  else if event = "update_settings" then
    if room.hostId ≠ playerId then ⟨room, w, some "NOT_HOST"⟩
    else if room.phase ≠ .lobby then ⟨room, w, some "GAME_ALREADY_STARTED"⟩
    else
      match payload with
      | .settingsField merged =>
        let room := updateSettings room merged
        let w := emitRoom w room.id (.settingsUpdated room.settings)
        ⟨room, broadcastRoomState room w, none⟩
      | _ => ⟨room, w, some "INVALID_PAYLOAD"⟩
  else if event = "submit_card" then
    match payload with
    | .cardField card =>
      let res := submitCard rnd.subUuid rnd.subShufR room w playerId card
      match res.error with
      | some e => ⟨res.room, res.world, some e⟩
      | none =>
        let room := res.room
        let (room, w) :=
          if room.phase = .judging then
            match room.players.find? (fun p => some p.id = room.hetmanId) with
            | some hetman =>
              if hetman.isBot then scheduleBotHetmanTurn room res.world hetman.id
              else (room, res.world)
            | none => (room, res.world)
          else (room, res.world)
        let myHand :=
          ((room.players.find? (fun p => p.id = playerId)).map
            (fun p => p.hand)).getD []
        ⟨room, emitPlayer w playerId (.cardsDealt myHand), none⟩
    | _ => ⟨room, w, some "INVALID_PAYLOAD"⟩
  else if event = "select_winner" then
    match payload with
    | .submissionIdField submissionId =>
      selectWinner room w playerId submissionId
    | _ => ⟨room, w, some "INVALID_PAYLOAD"⟩
  else if event = "chat_message" then
    match payload with
    | .textField text =>
      match room.players.find? (fun p => p.id = playerId) with
      | none => ⟨room, w, none⟩
      | some player =>
        if player.isBot then ⟨room, w, none⟩
        else
          ⟨room, emitRoom w room.id
            (.chatMessage playerId player.name (text.take 200)), none⟩
    | _ => ⟨room, w, some "INVALID_PAYLOAD"⟩
  else
    -- default: sendError(ws, "INVALID_PAYLOAD", `Unknown event: ${event}`)
    ⟨room, emitPlayer w playerId
      (.errorMsg "INVALID_PAYLOAD" ("Unknown event: " ++ event)), none⟩

/-- `handleMessage` prelude before `dispatch`: touch `lastActivityAt` and
reset the inactivity watchdog. -/
def touchActivity (room : Room) (w : World) : Room × World :=
  resetInactivityTimer { room with lastActivityAt := w.now } w

-- ── Reachability: every operation the event loop can trigger ───────────────

/-- Room-plus-event-loop state. -/
abbrev GState := Room × World

/-- One externally triggerable operation on a room: an inbound command's
store/engine/bot call, a gateway connect/disconnect, or a timer firing.
Where the code relies on `randomUUID()` freshness, the uuid argument carries
the corresponding freshness hypothesis (a collision-free uuid supply is an
environment assumption). -/
inductive Step (env : CardEnv) : GState → GState → Prop
  | joinStep (idU tokU nm : String) (pw : Option String) (r : Room) (w : World) :
      Step env (r, w)
        ((joinRoom idU tokU r w nm pw).room, (joinRoom idU tokU r w nm pw).world)
  | addBotStep (idU tokU : String) (r : Room) (w : World) :
      Step env (r, w) ((addBot idU tokU r w).room, (addBot idU tokU r w).world)
  | replaceWithBotStep (idU tokU pid : String) (r : Room) (w : World)
      (hfresh : idU ∉ r.submissions.map (fun s => s.playerId)) :
      Step env (r, w)
        (((replaceWithBot idU tokU r w pid).1).room,
         ((replaceWithBot idU tokU r w pid).1).world)
  | updateSettingsStep (merged : GameSettings) (r : Room) (w : World) :
      Step env (r, w) (updateSettings r merged, w)
  | startGameStep (randB randW : Nat → Nat) (r : Room) (w : World) :
      Step env (r, w)
        ((startGame env randB randW r w).room, (startGame env randB randW r w).world)
  | dealRoundStep (randW randB : Nat → Nat) (r : Room) (w : World) :
      Step env (r, w) (dealRound env randW randB r w)
  | pickBlackCardStep (het card : String) (r : Room) (w : World) :
      Step env (r, w)
        ((pickBlackCard r w het card).room, (pickBlackCard r w het card).world)
  | submitCardStep (uuid : String) (shufR : Nat → Nat) (pid card : String)
      (r : Room) (w : World) :
      Step env (r, w)
        ((submitCard uuid shufR r w pid card).room,
         (submitCard uuid shufR r w pid card).world)
  | selectWinnerStep (het subId : String) (r : Room) (w : World) :
      Step env (r, w)
        ((selectWinner r w het subId).room, (selectWinner r w het subId).world)
  | advanceRoundStep (randW randB : Nat → Nat) (r : Room) (w : World) :
      Step env (r, w) (advanceRound env randW randB r w)
  | endGameStep (reason : String) (r : Room) (w : World) :
      Step env (r, w) (endGame r w reason)
  | handleOpenStep (token : String) (r : Room) (w : World) :
      Step env (r, w) ((handleOpen r w token).1, (handleOpen r w token).2.1)
  | handleCloseStep (pid : String) (r : Room) (w : World) :
      Step env (r, w) (handleClose r w pid)
  | touchActivityStep (r : Room) (w : World) :
      Step env (r, w) (touchActivity r w)
  | scheduleBotTurnStep (botId : String) (r : Room) (w : World) :
      Step env (r, w) (scheduleBotTurn r w botId)
  | scheduleBotHetmanTurnStep (botId : String) (r : Room) (w : World) :
      Step env (r, w) (scheduleBotHetmanTurn r w botId)
  | scheduleBotBlackCardPickStep (botId : String) (r : Room) (w : World) :
      Step env (r, w) (scheduleBotBlackCardPick r w botId)
  | scheduleBotActionsAfterDealStep (r : Room) (w : World) :
      Step env (r, w) (scheduleBotActionsAfterDeal r w)
  | fireSubmissionTimerStep (uuid : Nat → String) (shufR : Nat → Nat → Nat)
      (pickR : Nat → Nat) (id : Nat) (r : Room) (w : World)
      (hlive : (id, TimerTag.submission) ∈ w.pending) :
      Step env (r, w) (fireSubmissionTimer uuid shufR pickR r w id)
  | fireRevealTimerStep (id : Nat) (r : Room) (w : World)
      (hlive : (id, TimerTag.reveal) ∈ w.pending) :
      Step env (r, w) (fireRevealTimer r w id)
  | fireAdvanceTimerStep (randW randB : Nat → Nat) (id : Nat) (r : Room) (w : World)
      (hlive : (id, TimerTag.advance) ∈ w.pending) :
      Step env (r, w) (fireAdvanceTimer env randW randB r w id)
  | fireInactivityTimerStep (id : Nat) (r : Room) (w : World)
      (hlive : (id, TimerTag.inactivity) ∈ w.pending) :
      Step env (r, w) (fireInactivityTimer r w id)
  | fireSessionTimerStep (id : Nat) (r : Room) (w : World)
      (hlive : (id, TimerTag.session) ∈ w.pending) :
      Step env (r, w) (fireSessionTimer r w id)
  | fireCleanupTimerStep (id : Nat) (r : Room) (w : World)
      (hlive : (id, TimerTag.cleanup) ∈ w.pending) :
      Step env (r, w) (fireCleanupTimer r w id)
  | fireReconnectTimerStep (idU tokU pid : String) (id : Nat) (r : Room) (w : World)
      (hlive : (id, TimerTag.reconnect pid) ∈ w.pending)
      (hfresh : idU ∉ r.submissions.map (fun s => s.playerId)) :
      Step env (r, w) (fireReconnectTimer idU tokU r w pid id)
  | fireBotSubmitTimerStep (uuid : String) (shufR : Nat → Nat) (pickR : Nat)
      (botId : String) (id : Nat) (r : Room) (w : World)
      (hlive : (id, TimerTag.botSubmit botId) ∈ w.pending) :
      Step env (r, w) (fireBotSubmitTimer uuid shufR pickR r w botId id)
  | fireBotJudgeTimerStep (pickR : Nat) (botId : String) (id : Nat)
      (r : Room) (w : World)
      (hlive : (id, TimerTag.botJudge botId) ∈ w.pending) :
      Step env (r, w) (fireBotJudgeTimer pickR r w botId id)
  | fireBotPickTimerStep (pickR : Nat) (botId : String) (id : Nat)
      (r : Room) (w : World)
      (hlive : (id, TimerTag.botPick botId) ∈ w.pending) :
      Step env (r, w) (fireBotPickTimer pickR r w botId id)
  | tickStep (dt : Nat) (r : Room) (w : World) :
      Step env (r, w) (r, { w with now := w.now + dt })

/-- The state of a freshly created room (the external create-room flow). -/
def initState (env : CardEnv) (roomId idU tokU hostName : String)
    (settings : GameSettings) (now : Nat) : GState :=
  ((createRoom env roomId idU tokU hostName settings now).1,
   { now := now, pending := [], nextTimerId := 0, events := [], roomsDeleted := [] })

/-- States reachable from some freshly created room. -/
def ReachableFromInit (env : CardEnv) (s : GState) : Prop :=
  ∃ roomId idU tokU hostName settings now,
    Relation.ReflTransGen (Step env)
      (initState env roomId idU tokU hostName settings now) s

-- ── The submissions invariant (claim C1) ───────────────────────────────────

/-- The part of the submissions invariant the code maintains: unique
`playerId`s, the hetman never among the submitters, and no submissions while
still in the lobby. -/
def SubmissionInv (room : Room) : Prop :=
  (room.submissions.map (fun s => s.playerId)).Nodup ∧
  (∀ s ∈ room.submissions, some s.playerId ≠ room.hetmanId) ∧
  (room.phase = .lobby → room.submissions = [])

-- ── Generic list lemmas for `updateFirst` ──────────────────────────────────

theorem updateFirst_map_eq {α β : Type} (g : α → β) (p : α → Bool) (f : α → α)
    (hg : ∀ a, g (f a) = g a) : ∀ l : List α, (updateFirst p f l).map g = l.map g
  | [] => rfl
  | a :: as => by
    by_cases h : p a <;>
      simp [updateFirst, h, hg, updateFirst_map_eq g p f hg as]

theorem mem_updateFirst {α : Type} {p : α → Bool} {f : α → α} {l : List α} {x : α}
    (hx : x ∈ updateFirst p f l) : x ∈ l ∨ ∃ a ∈ l, x = f a := by
  induction l with
  | nil => simp [updateFirst] at hx
  | cons a as ih =>
    by_cases h : p a
    · simp only [updateFirst, h, if_pos, List.mem_cons] at hx
      rcases hx with rfl | hx
      · exact Or.inr ⟨a, List.mem_cons_self a as, rfl⟩
      · exact Or.inl (List.mem_cons_of_mem a hx)
    · simp only [updateFirst, h, if_neg, List.mem_cons, Bool.false_eq_true,
        not_false_eq_true] at hx
      rcases hx with rfl | hx
      · exact Or.inl (List.mem_cons_self x as)
      · rcases ih hx with h1 | ⟨b, hb, rfl⟩
        · exact Or.inl (List.mem_cons_of_mem a h1)
        · exact Or.inr ⟨b, List.mem_cons_of_mem a hb, rfl⟩

-- ── Core-field preservation of the timer / scheduling helpers ──────────────
-- These operations only touch the timer registry, the event log or
-- connection flags, never submissions / hetman / phase.

theorem subInv_transfer {r r' : Room} (h : SubmissionInv r)
    (hs : r'.submissions = r.submissions) (hh : r'.hetmanId = r.hetmanId)
    (hp : r'.phase = .lobby → r.phase = .lobby) : SubmissionInv r' := by
  obtain ⟨h1, h2, h3⟩ := h
  refine ⟨hs ▸ h1, ?_, ?_⟩
  · intro s hsm
    rw [hs] at hsm
    rw [hh]
    exact h2 s hsm
  · intro hl
    rw [hs]
    exact h3 (hp hl)

theorem clearTimer_core (r : Room) (w : World) (k : String) :
    (clearTimer r w k).1.submissions = r.submissions ∧
    (clearTimer r w k).1.hetmanId = r.hetmanId ∧
    (clearTimer r w k).1.phase = r.phase := by
  unfold clearTimer
  split <;> exact ⟨rfl, rfl, rfl⟩

theorem resetInactivityTimer_core (r : Room) (w : World) :
    (resetInactivityTimer r w).1.submissions = r.submissions ∧
    (resetInactivityTimer r w).1.hetmanId = r.hetmanId ∧
    (resetInactivityTimer r w).1.phase = r.phase := by
  unfold resetInactivityTimer
  obtain ⟨h1, h2, h3⟩ := clearTimer_core r w "inactivity"
  exact ⟨h1, h2, h3⟩

theorem startSessionTimer_core (r : Room) (w : World) :
    (startSessionTimer r w).1.submissions = r.submissions ∧
    (startSessionTimer r w).1.hetmanId = r.hetmanId ∧
    (startSessionTimer r w).1.phase = r.phase := by
  unfold startSessionTimer
  obtain ⟨h1, h2, h3⟩ := clearTimer_core r w "session"
  exact ⟨h1, h2, h3⟩

theorem startSubmissionTimer_core (r : Room) (w : World) :
    (startSubmissionTimer r w).1.submissions = r.submissions ∧
    (startSubmissionTimer r w).1.hetmanId = r.hetmanId ∧
    (startSubmissionTimer r w).1.phase = r.phase := by
  unfold startSubmissionTimer
  obtain ⟨h1, h2, h3⟩ := clearTimer_core r w "submission"
  split <;> exact ⟨h1, h2, h3⟩

theorem cancelSubmissionTimer_core (r : Room) (w : World) :
    (cancelSubmissionTimer r w).1.submissions = r.submissions ∧
    (cancelSubmissionTimer r w).1.hetmanId = r.hetmanId ∧
    (cancelSubmissionTimer r w).1.phase = r.phase :=
  clearTimer_core r w "submission"

theorem cancelReconnectTimer_core (r : Room) (w : World) (pid : String) :
    (cancelReconnectTimer r w pid).1.submissions = r.submissions ∧
    (cancelReconnectTimer r w pid).1.hetmanId = r.hetmanId ∧
    (cancelReconnectTimer r w pid).1.phase = r.phase :=
  clearTimer_core r w ("reconnect:" ++ pid)

theorem startReconnectTimer_core (r : Room) (w : World) (pid : String) :
    (startReconnectTimer r w pid).1.submissions = r.submissions ∧
    (startReconnectTimer r w pid).1.hetmanId = r.hetmanId ∧
    (startReconnectTimer r w pid).1.phase = r.phase := by
  unfold startReconnectTimer
  obtain ⟨h1, h2, h3⟩ := clearTimer_core r w ("reconnect:" ++ pid)
  exact ⟨h1, h2, h3⟩

theorem scheduleBotTurn_core (r : Room) (w : World) (b : String) :
    (scheduleBotTurn r w b).1.submissions = r.submissions ∧
    (scheduleBotTurn r w b).1.hetmanId = r.hetmanId ∧
    (scheduleBotTurn r w b).1.phase = r.phase :=
  ⟨rfl, rfl, rfl⟩

theorem botsAfterDealLoop_core (ps : List Player) :
    ∀ (r : Room) (w : World),
      (botsAfterDealLoop ps r w).1.submissions = r.submissions ∧
      (botsAfterDealLoop ps r w).1.hetmanId = r.hetmanId ∧
      (botsAfterDealLoop ps r w).1.phase = r.phase := by
  induction ps with
  | nil => exact fun r w => ⟨rfl, rfl, rfl⟩
  | cons p ps ih =>
    intro r w
    unfold botsAfterDealLoop
    split
    · obtain ⟨h1, h2, h3⟩ := ih (scheduleBotTurn r w p.id).1 (scheduleBotTurn r w p.id).2
      exact ⟨h1, h2, h3⟩
    · exact ih r w

theorem scheduleBotActionsAfterDeal_core (r : Room) (w : World) :
    (scheduleBotActionsAfterDeal r w).1.submissions = r.submissions ∧
    (scheduleBotActionsAfterDeal r w).1.hetmanId = r.hetmanId ∧
    (scheduleBotActionsAfterDeal r w).1.phase = r.phase :=
  botsAfterDealLoop_core r.players r w

@[simp] theorem clearTimer_submissions (r : Room) (w : World) (k : String) :
    (clearTimer r w k).1.submissions = r.submissions := (clearTimer_core r w k).1

@[simp] theorem clearTimer_hetmanId (r : Room) (w : World) (k : String) :
    (clearTimer r w k).1.hetmanId = r.hetmanId := (clearTimer_core r w k).2.1

@[simp] theorem clearTimer_phase (r : Room) (w : World) (k : String) :
    (clearTimer r w k).1.phase = r.phase := (clearTimer_core r w k).2.2

@[simp] theorem resetInactivityTimer_submissions (r : Room) (w : World) :
    (resetInactivityTimer r w).1.submissions = r.submissions :=
  (resetInactivityTimer_core r w).1

@[simp] theorem resetInactivityTimer_hetmanId (r : Room) (w : World) :
    (resetInactivityTimer r w).1.hetmanId = r.hetmanId :=
  (resetInactivityTimer_core r w).2.1

@[simp] theorem resetInactivityTimer_phase (r : Room) (w : World) :
    (resetInactivityTimer r w).1.phase = r.phase :=
  (resetInactivityTimer_core r w).2.2

@[simp] theorem cancelReconnectTimer_submissions (r : Room) (w : World) (pid : String) :
    (cancelReconnectTimer r w pid).1.submissions = r.submissions :=
  (cancelReconnectTimer_core r w pid).1

@[simp] theorem cancelReconnectTimer_hetmanId (r : Room) (w : World) (pid : String) :
    (cancelReconnectTimer r w pid).1.hetmanId = r.hetmanId :=
  (cancelReconnectTimer_core r w pid).2.1

@[simp] theorem cancelReconnectTimer_phase (r : Room) (w : World) (pid : String) :
    (cancelReconnectTimer r w pid).1.phase = r.phase :=
  (cancelReconnectTimer_core r w pid).2.2

@[simp] theorem cancelSubmissionTimer_submissions (r : Room) (w : World) :
    (cancelSubmissionTimer r w).1.submissions = r.submissions :=
  (cancelSubmissionTimer_core r w).1

@[simp] theorem cancelSubmissionTimer_hetmanId (r : Room) (w : World) :
    (cancelSubmissionTimer r w).1.hetmanId = r.hetmanId :=
  (cancelSubmissionTimer_core r w).2.1

@[simp] theorem cancelSubmissionTimer_phase (r : Room) (w : World) :
    (cancelSubmissionTimer r w).1.phase = r.phase :=
  (cancelSubmissionTimer_core r w).2.2

@[simp] theorem startReconnectTimer_submissions (r : Room) (w : World) (pid : String) :
    (startReconnectTimer r w pid).1.submissions = r.submissions :=
  (startReconnectTimer_core r w pid).1

@[simp] theorem startReconnectTimer_hetmanId (r : Room) (w : World) (pid : String) :
    (startReconnectTimer r w pid).1.hetmanId = r.hetmanId :=
  (startReconnectTimer_core r w pid).2.1

@[simp] theorem startReconnectTimer_phase (r : Room) (w : World) (pid : String) :
    (startReconnectTimer r w pid).1.phase = r.phase :=
  (startReconnectTimer_core r w pid).2.2

-- ── Preservation of `SubmissionInv` by every operation ─────────────────────

theorem inv_joinRoom (idU tokU nm : String) (pw : Option String) (r : Room)
    (w : World) (h : SubmissionInv r) :
    SubmissionInv (joinRoom idU tokU r w nm pw).room := by
  unfold joinRoom
  split
  · exact h
  · split
    · exact h
    · split
      · exact h
      · exact subInv_transfer h rfl rfl (fun x => x)

theorem inv_addBot (idU tokU : String) (r : Room) (w : World)
    (h : SubmissionInv r) : SubmissionInv (addBot idU tokU r w).room := by
  unfold addBot
  split
  · exact h
  · exact subInv_transfer h rfl rfl (fun x => x)

theorem inv_updateSettings (merged : GameSettings) (r : Room)
    (h : SubmissionInv r) : SubmissionInv (updateSettings r merged) :=
  subInv_transfer h rfl rfl (fun x => x)

theorem inv_replaceWithBot (idU tokU pid : String) (r : Room) (w : World)
    (hfresh : idU ∉ r.submissions.map (fun s => s.playerId))
    (h : SubmissionInv r) :
    SubmissionInv ((replaceWithBot idU tokU r w pid).1).room := by
  unfold replaceWithBot
  cases hidx : r.players.findIdx? (fun p => p.id = pid) with
  | none => exact h
  | some idx =>
    obtain ⟨h1, h2, h3⟩ := h
    refine ⟨h1, ?_, h3⟩
    intro s hs
    show some s.playerId ≠ (if r.hetmanId = some pid then some idU else r.hetmanId)
    by_cases hhet : r.hetmanId = some pid
    · rw [if_pos hhet]
      intro hc
      exact hfresh (by
        simp only [List.mem_map]
        exact ⟨s, hs, (Option.some.injEq _ _).mp hc⟩)
    · rw [if_neg hhet]
      exact h2 s hs

theorem inv_startGame (env : CardEnv) (randB randW : Nat → Nat) (r : Room)
    (w : World) (h : SubmissionInv r) :
    SubmissionInv (startGame env randB randW r w).room := by
  unfold startGame
  split
  · exact h
  · split
    · exact h
    · rename_i hcount hphase
      have hlobby : r.phase = .lobby := not_not.mp (by simpa using hphase)
      have hempty : r.submissions = [] := h.2.2 hlobby
      obtain ⟨h1, h2, h3⟩ := startSessionTimer_core
        { r with
          blackDeck := shuffleDeck randB env.blackCards
          whiteDeck := shuffleDeck randW env.whiteCards
          currentRound := 0
          hetmanId := some r.hostId } w
      set r1 := { r with
          blackDeck := shuffleDeck randB env.blackCards
          whiteDeck := shuffleDeck randW env.whiteCards
          currentRound := 0
          hetmanId := some r.hostId }
      obtain ⟨g1, g2, g3⟩ := resetInactivityTimer_core
        (startSessionTimer r1 w).1 (startSessionTimer r1 w).2
      refine ⟨?_, ?_, ?_⟩
      · rw [g1, h1]
        simpa [r1] using (hempty ▸ List.nodup_nil)
      · intro s hsmem
        rw [g1, h1] at hsmem
        simp only [r1] at hsmem
        rw [hempty] at hsmem
        cases hsmem
      · intro _
        rw [g1, h1]
        simpa [r1] using hempty

theorem inv_dealRound (env : CardEnv) (randW randB : Nat → Nat) (r : Room)
    (w : World) : SubmissionInv (dealRound env randW randB r w).1 := by
  have hsubs : (dealRound env randW randB r w).1.submissions = [] := by
    unfold dealRound
    rfl
  refine ⟨?_, ?_, ?_⟩
  · rw [hsubs]; exact List.nodup_nil
  · intro s hsmem
    rw [hsubs] at hsmem
    cases hsmem
  · intro _
    exact hsubs

theorem inv_pickBlackCard (het card : String) (r : Room) (w : World)
    (h : SubmissionInv r) : SubmissionInv (pickBlackCard r w het card).room := by
  unfold pickBlackCard
  split
  · exact h
  · split
    · exact h
    · split
      · exact h
      · refine subInv_transfer h ?_ ?_ ?_
        · exact (startSubmissionTimer_core _ _).1
        · exact (startSubmissionTimer_core _ _).2.1
        · intro hl
          rw [(startSubmissionTimer_core _ _).2.2] at hl
          cases hl

theorem inv_submitCard (uuid : String) (shufR : Nat → Nat) (pid card : String)
    (r : Room) (w : World) (h : SubmissionInv r) :
    SubmissionInv (submitCard uuid shufR r w pid card).room := by
  unfold submitCard
  by_cases hphase : r.phase ≠ GamePhase.submitting
  · rw [if_pos hphase]; exact h
  · rw [if_neg hphase]
    cases hfind : r.players.find? (fun p => p.id = pid) with
    | none => exact h
    | some player =>
      dsimp only
      by_cases hhet : some pid = r.hetmanId
      · rw [if_pos hhet]; exact h
      · rw [if_neg hhet]
        by_cases hdup : r.submissions.any (fun s => s.playerId = pid) = true
        · rw [if_pos hdup]; exact h
        · rw [if_neg hdup]
          by_cases hhand : ¬ player.hand.contains card = true
          · rw [if_pos hhand]; exact h
          · rw [if_neg hhand]
            obtain ⟨h1, h2, h3⟩ := h
            have hpidnot : pid ∉ r.submissions.map (fun s => s.playerId) := by
              intro hmem
              apply hdup
              simp only [List.mem_map] at hmem
              obtain ⟨s, hsm, hsp⟩ := hmem
              simp only [List.any_eq_true, decide_eq_true_eq]
              exact ⟨s, hsm, hsp⟩
            have hnew : SubmissionInv { r with
                players := updateFirst (fun p => p.id = pid)
                  (fun p => { p with hand := p.hand.erase card }) r.players
                submissions := r.submissions ++
                  [{ anonymousId := uuid, playerId := pid, card := card,
                     isWinner := false }] } := by
              refine ⟨?_, ?_, ?_⟩
              · simp only [List.map_append, List.map_cons, List.map_nil]
                rw [List.nodup_append]
                exact ⟨h1, List.nodup_singleton _, by
                  intro a ha hb
                  simp only [List.mem_singleton] at hb
                  subst hb
                  exact hpidnot ha⟩
              · intro s hsmem
                rcases List.mem_append.mp hsmem with hold | hnewm
                · exact h2 s hold
                · simp only [List.mem_singleton] at hnewm
                  subst hnewm
                  exact fun hc => hhet hc
              · intro hl
                exfalso
                have hsub : r.phase = GamePhase.submitting := not_not.mp hphase
                rw [hsub] at hl
                cases hl
            split
            · refine subInv_transfer hnew ?_ ?_ ?_
              · exact (cancelSubmissionTimer_core _ _).1
              · exact (cancelSubmissionTimer_core _ _).2.1
              · intro hl
                exact GamePhase.noConfusion
                  (show GamePhase.judging = GamePhase.lobby from hl)
            · exact hnew

theorem inv_selectWinner (het subId : String) (r : Room) (w : World)
    (h : SubmissionInv r) : SubmissionInv (selectWinner r w het subId).room := by
  unfold selectWinner
  split
  · exact h
  · split
    · exact h
    · cases hfind : r.submissions.find? (fun s => s.anonymousId = subId) with
      | none => exact h
      | some submission =>
        obtain ⟨h1, h2, h3⟩ := h
        have hmap : (updateFirst (fun s => s.anonymousId = subId)
            (fun s => { s with isWinner := true }) r.submissions).map
              (fun s => s.playerId) =
            r.submissions.map (fun s => s.playerId) :=
          updateFirst_map_eq (fun s => s.playerId)
            (fun s => s.anonymousId = subId)
            (fun s => { s with isWinner := true }) (fun a => rfl) r.submissions
        refine ⟨?_, ?_, ?_⟩
        · rw [hmap]
          exact h1
        · intro s hsmem
          rcases mem_updateFirst hsmem with hold | ⟨a, ha, rfl⟩
          · exact h2 s hold
          · exact h2 a ha
        · intro hl
          cases hl

theorem clearAllTimers_core (r : Room) (w : World) :
    (clearAllTimers r w).1.submissions = r.submissions ∧
    (clearAllTimers r w).1.hetmanId = r.hetmanId ∧
    (clearAllTimers r w).1.phase = r.phase :=
  ⟨rfl, rfl, rfl⟩

theorem inv_endGame (reason : String) (r : Room) (w : World)
    (h : SubmissionInv r) : SubmissionInv (endGame r w reason).1 := by
  unfold endGame
  split
  · exact h
  · dsimp only
    split
    · exact subInv_transfer h rfl rfl (fun hl =>
        GamePhase.noConfusion (show GamePhase.gameOver = GamePhase.lobby from hl))
    · exact subInv_transfer h rfl rfl (fun hl =>
        GamePhase.noConfusion (show GamePhase.gameOver = GamePhase.lobby from hl))

theorem inv_advanceRound (env : CardEnv) (randW randB : Nat → Nat) (r : Room)
    (w : World) (h : SubmissionInv r) :
    SubmissionInv (advanceRound env randW randB r w).1 := by
  unfold advanceRound
  split
  · exact inv_endGame _ _ _ h
  · split <;> exact inv_dealRound _ _ _ _ _

theorem inv_handleOpen (token : String) (r : Room) (w : World)
    (h : SubmissionInv r) : SubmissionInv (handleOpen r w token).1 := by
  unfold handleOpen
  cases hfind : r.players.find? (fun p => p.token = token) with
  | none => exact h
  | some player =>
    dsimp only
    refine subInv_transfer h ?_ ?_ ?_
    · simp
    · simp
    · intro hl
      simp only [resetInactivityTimer_phase] at hl
      simpa using hl

theorem inv_handleClose (pid : String) (r : Room) (w : World)
    (h : SubmissionInv r) : SubmissionInv (handleClose r w pid).1 := by
  unfold handleClose
  split
  · exact h
  · cases hfind : r.players.find? (fun p => p.id = pid) with
    | none => exact h
    | some player =>
      dsimp only
      by_cases hbot : player.isBot = true
      · rw [if_pos hbot]
        exact h
      · rw [if_neg hbot]
        by_cases hcond : r.phase ≠ GamePhase.lobby ∧ r.phase ≠ GamePhase.gameOver
        · rw [if_pos hcond]
          refine subInv_transfer h ?_ ?_ ?_
          · simp
          · simp
          · intro hl
            simp only [startReconnectTimer_phase] at hl
            simpa using hl
        · rw [if_neg hcond]
          exact subInv_transfer h rfl rfl (fun hl => hl)

theorem inv_touchActivity (r : Room) (w : World) (h : SubmissionInv r) :
    SubmissionInv (touchActivity r w).1 := by
  unfold touchActivity
  refine subInv_transfer h ?_ ?_ ?_
  · exact (resetInactivityTimer_core _ _).1
  · exact (resetInactivityTimer_core _ _).2.1
  · intro hl
    rw [(resetInactivityTimer_core _ _).2.2] at hl
    exact hl

theorem inv_scheduleBotTurn (b : String) (r : Room) (w : World)
    (h : SubmissionInv r) : SubmissionInv (scheduleBotTurn r w b).1 :=
  subInv_transfer h rfl rfl (fun hl => hl)

theorem inv_scheduleBotHetmanTurn (b : String) (r : Room) (w : World)
    (h : SubmissionInv r) : SubmissionInv (scheduleBotHetmanTurn r w b).1 := by
  unfold scheduleBotHetmanTurn
  split
  · exact h
  · exact subInv_transfer h rfl rfl (fun hl => hl)

theorem inv_scheduleBotBlackCardPick (b : String) (r : Room) (w : World)
    (h : SubmissionInv r) : SubmissionInv (scheduleBotBlackCardPick r w b).1 := by
  unfold scheduleBotBlackCardPick
  split
  · exact h
  · exact subInv_transfer h rfl rfl (fun hl => hl)

theorem inv_scheduleBotActionsAfterDeal (r : Room) (w : World)
    (h : SubmissionInv r) : SubmissionInv (scheduleBotActionsAfterDeal r w).1 := by
  obtain ⟨c1, c2, c3⟩ := scheduleBotActionsAfterDeal_core r w
  exact subInv_transfer h c1 c2 (fun hl => c3 ▸ hl)

theorem inv_forceSubmitLoop (uuid : Nat → String) (shufR : Nat → Nat → Nat)
    (pickR : Nat → Nat) :
    ∀ (ids : List String) (k : Nat) (r : Room) (w : World), SubmissionInv r →
      SubmissionInv (forceSubmitLoop uuid shufR pickR ids k r w).1 := by
  intro ids
  induction ids with
  | nil => exact fun k r w h => h
  | cons pid rest ih =>
    intro k r w h
    unfold forceSubmitLoop
    cases hfind : r.players.find? (fun p => p.id = pid) with
    | none => exact ih _ _ _ h
    | some player =>
      dsimp only
      split
      · exact ih _ _ _ h
      · split
        · split
          · exact inv_submitCard _ _ _ _ _ _ h
          · exact ih _ _ _ (inv_submitCard _ _ _ _ _ _ h)
        · exact ih _ _ _ h

theorem inv_fireSubmissionTimer (uuid : Nat → String) (shufR : Nat → Nat → Nat)
    (pickR : Nat → Nat) (id : Nat) (r : Room) (w : World) (h : SubmissionInv r) :
    SubmissionInv (fireSubmissionTimer uuid shufR pickR r w id).1 := by
  unfold fireSubmissionTimer
  refine inv_forceSubmitLoop _ _ _ _ _ _ _ ?_
  exact subInv_transfer h rfl rfl (fun hl => hl)

theorem inv_fireRevealTimer (id : Nat) (r : Room) (w : World)
    (h : SubmissionInv r) : SubmissionInv (fireRevealTimer r w id).1 :=
  subInv_transfer h rfl rfl (fun hl =>
    GamePhase.noConfusion (show GamePhase.roundEnd = GamePhase.lobby from hl))

theorem inv_fireAdvanceTimer (env : CardEnv) (randW randB : Nat → Nat)
    (id : Nat) (r : Room) (w : World) (h : SubmissionInv r) :
    SubmissionInv (fireAdvanceTimer env randW randB r w id).1 := by
  unfold fireAdvanceTimer
  exact inv_advanceRound _ _ _ _ _ (subInv_transfer h rfl rfl (fun hl => hl))

theorem inv_fireInactivityTimer (id : Nat) (r : Room) (w : World)
    (h : SubmissionInv r) : SubmissionInv (fireInactivityTimer r w id).1 := by
  unfold fireInactivityTimer
  exact inv_endGame _ _ _ (subInv_transfer h rfl rfl (fun hl => hl))

theorem inv_fireSessionTimer (id : Nat) (r : Room) (w : World)
    (h : SubmissionInv r) : SubmissionInv (fireSessionTimer r w id).1 := by
  unfold fireSessionTimer
  exact inv_endGame _ _ _ (subInv_transfer h rfl rfl (fun hl => hl))

theorem inv_fireCleanupTimer (id : Nat) (r : Room) (w : World)
    (h : SubmissionInv r) : SubmissionInv (fireCleanupTimer r w id).1 :=
  subInv_transfer h rfl rfl (fun hl => hl)

theorem inv_replaceWithBot_pair (idU tokU pid : String) (r : Room) (w : World)
    (hfresh : idU ∉ r.submissions.map (fun s => s.playerId))
    (h : SubmissionInv r) (res : EResult) (bot : Option Player)
    (heq : replaceWithBot idU tokU r w pid = (res, bot)) :
    SubmissionInv res.room := by
  have hinv := inv_replaceWithBot idU tokU pid r w hfresh h
  rw [heq] at hinv
  exact hinv

theorem inv_fireReconnectTimer (idU tokU pid : String) (id : Nat) (r : Room)
    (w : World) (hfresh : idU ∉ r.submissions.map (fun s => s.playerId))
    (h : SubmissionInv r) :
    SubmissionInv (fireReconnectTimer idU tokU r w pid id).1 := by
  unfold fireReconnectTimer
  have h1 : SubmissionInv { r with timers := timersErase r.timers ("reconnect:" ++ pid) } :=
    subInv_transfer h rfl rfl (fun hl => hl)
  have hfresh1 : idU ∉ ({ r with
      timers := timersErase r.timers ("reconnect:" ++ pid) } : Room).submissions.map
        (fun s => s.playerId) := hfresh
  dsimp only [fireCommon]
  split
  · exact h1
  · split
    · exact h1
    · split
      · exact h1
      · split
        · rename_i res heq
          exact inv_replaceWithBot_pair _ _ _ _ _ hfresh1 h1 res none heq
        · rename_i res bot heq
          have hres : SubmissionInv res.room :=
            inv_replaceWithBot_pair _ _ _ _ _ hfresh1 h1 res (some bot) heq
          split
          · exact hres
          · split
            · exact inv_scheduleBotActionsAfterDeal _ _ hres
            · exact hres

theorem inv_fireBotSubmitTimer (uuid : String) (shufR : Nat → Nat) (pickR : Nat)
    (botId : String) (id : Nat) (r : Room) (w : World) (h : SubmissionInv r) :
    SubmissionInv (fireBotSubmitTimer uuid shufR pickR r w botId id).1 := by
  unfold fireBotSubmitTimer
  have h1 : SubmissionInv { r with
      timers := timersErase r.timers ("bot_submit:" ++ botId) } :=
    subInv_transfer h rfl rfl (fun hl => hl)
  dsimp only [fireCommon]
  split
  · exact h1
  · split
    · exact h1
    · split
      · exact h1
      · rename_i bot hfind
        split
        · exact h1
        · split
          · exact h1
          · exact inv_submitCard _ _ _ _ _ _ h1

theorem inv_fireBotJudgeTimer (pickR : Nat) (botId : String) (id : Nat)
    (r : Room) (w : World) (h : SubmissionInv r) :
    SubmissionInv (fireBotJudgeTimer pickR r w botId id).1 := by
  unfold fireBotJudgeTimer
  have h1 : SubmissionInv { r with
      timers := timersErase r.timers ("bot_judge:" ++ botId) } :=
    subInv_transfer h rfl rfl (fun hl => hl)
  dsimp only [fireCommon]
  split
  · exact h1
  · split
    · exact h1
    · split
      · exact h1
      · exact inv_selectWinner _ _ _ _ h1

theorem inv_fireBotPickTimer (pickR : Nat) (botId : String) (id : Nat)
    (r : Room) (w : World) (h : SubmissionInv r) :
    SubmissionInv (fireBotPickTimer pickR r w botId id).1 := by
  unfold fireBotPickTimer
  have h1 : SubmissionInv { r with
      timers := timersErase r.timers ("bot_pick:" ++ botId) } :=
    subInv_transfer h rfl rfl (fun hl => hl)
  dsimp only [fireCommon]
  split
  · exact h1
  · split
    · exact h1
    · split
      · exact h1
      · split
        · exact h1
        · exact inv_pickBlackCard _ _ _ _ h1

/-- A single event-loop step preserves the submissions invariant. -/
theorem inv_step (env : CardEnv) {s s' : GState} (hstep : Step env s s')
    (h : SubmissionInv s.1) : SubmissionInv s'.1 := by
  cases hstep with
  | joinStep idU tokU nm pw r w => exact inv_joinRoom idU tokU nm pw r w h
  | addBotStep idU tokU r w => exact inv_addBot idU tokU r w h
  | replaceWithBotStep idU tokU pid r w hfresh =>
    exact inv_replaceWithBot idU tokU pid r w hfresh h
  | updateSettingsStep merged r w => exact inv_updateSettings merged r h
  | startGameStep randB randW r w => exact inv_startGame env randB randW r w h
  | dealRoundStep randW randB r w => exact inv_dealRound env randW randB r w
  | pickBlackCardStep het card r w => exact inv_pickBlackCard het card r w h
  | submitCardStep uuid shufR pid card r w =>
    exact inv_submitCard uuid shufR pid card r w h
  | selectWinnerStep het subId r w => exact inv_selectWinner het subId r w h
  | advanceRoundStep randW randB r w => exact inv_advanceRound env randW randB r w h
  | endGameStep reason r w => exact inv_endGame reason r w h
  | handleOpenStep token r w => exact inv_handleOpen token r w h
  | handleCloseStep pid r w => exact inv_handleClose pid r w h
  | touchActivityStep r w => exact inv_touchActivity r w h
  | scheduleBotTurnStep botId r w => exact inv_scheduleBotTurn botId r w h
  | scheduleBotHetmanTurnStep botId r w => exact inv_scheduleBotHetmanTurn botId r w h
  | scheduleBotBlackCardPickStep botId r w =>
    exact inv_scheduleBotBlackCardPick botId r w h
  | scheduleBotActionsAfterDealStep r w => exact inv_scheduleBotActionsAfterDeal r w h
  | fireSubmissionTimerStep uuid shufR pickR id r w hlive =>
    exact inv_fireSubmissionTimer uuid shufR pickR id r w h
  | fireRevealTimerStep id r w hlive => exact inv_fireRevealTimer id r w h
  | fireAdvanceTimerStep randW randB id r w hlive =>
    exact inv_fireAdvanceTimer env randW randB id r w h
  | fireInactivityTimerStep id r w hlive => exact inv_fireInactivityTimer id r w h
  | fireSessionTimerStep id r w hlive => exact inv_fireSessionTimer id r w h
  | fireCleanupTimerStep id r w hlive => exact inv_fireCleanupTimer id r w h
  | fireReconnectTimerStep idU tokU pid id r w hlive hfresh =>
    exact inv_fireReconnectTimer idU tokU pid id r w hfresh h
  | fireBotSubmitTimerStep uuid shufR pickR botId id r w hlive =>
    exact inv_fireBotSubmitTimer uuid shufR pickR botId id r w h
  | fireBotJudgeTimerStep pickR botId id r w hlive =>
    exact inv_fireBotJudgeTimer pickR botId id r w h
  | fireBotPickTimerStep pickR botId id r w hlive =>
    exact inv_fireBotPickTimer pickR botId id r w h
  | tickStep dt r w => exact h

/-- A freshly created room satisfies the invariant. -/
theorem inv_initState (env : CardEnv) (roomId idU tokU hostName : String)
    (settings : GameSettings) (now : Nat) :
    SubmissionInv (initState env roomId idU tokU hostName settings now).1 :=
  ⟨List.nodup_nil, fun s hs => absurd hs (List.not_mem_nil s), fun _ => rfl⟩

theorem submissionInv_of_reachable (env : CardEnv) (s : GState)
    (h : ReachableFromInit env s) : SubmissionInv s.1 := by
  obtain ⟨roomId, idU, tokU, hostName, settings, now, hreach⟩ := h
  induction hreach with
  | refl => exact inv_initState env roomId idU tokU hostName settings now
  | tail hsteps hstep ih => exact inv_step env hstep ih

/-- Counting consequence: submissions belonging to current players number at
most `players - 1` whenever the hetman is a current player. -/
theorem submission_count_bound (room : Room) (h : SubmissionInv room)
    (het : String) (hhet : room.hetmanId = some het)
    (hmem : het ∈ room.players.map Player.id) :
    (room.submissions.filter
      (fun sub => room.players.any (fun p => p.id = sub.playerId))).length ≤
      room.players.length - 1 := by
  obtain ⟨h1, h2, _⟩ := h
  have hsub : (room.submissions.filter
      (fun sub => room.players.any (fun p => p.id = sub.playerId))).Sublist
      room.submissions := List.filter_sublist _
  have hmapnd : ((room.submissions.filter
      (fun sub => room.players.any (fun p => p.id = sub.playerId))).map
        (fun sub => sub.playerId)).Nodup :=
    h1.sublist (hsub.map _)
  have hss : ((room.submissions.filter
      (fun sub => room.players.any (fun p => p.id = sub.playerId))).map
        (fun sub => sub.playerId)).toFinset ⊆
      ((room.players.map Player.id).toFinset.erase het) := by
    intro x hx
    simp only [List.mem_toFinset, List.mem_map, List.mem_filter] at hx
    obtain ⟨sub, ⟨hsm, hpred⟩, rfl⟩ := hx
    rw [Finset.mem_erase]
    constructor
    · intro hcontra
      apply h2 sub hsm
      rw [hcontra, hhet]
    · rw [List.mem_toFinset, List.mem_map]
      simp only [List.any_eq_true, decide_eq_true_eq] at hpred
      obtain ⟨p, hp, hpe⟩ := hpred
      exact ⟨p, hp, hpe⟩
  calc (room.submissions.filter
        (fun sub => room.players.any (fun p => p.id = sub.playerId))).length
      = ((room.submissions.filter
          (fun sub => room.players.any (fun p => p.id = sub.playerId))).map
            (fun sub => sub.playerId)).length := (List.length_map _ _).symm
    _ = ((room.submissions.filter
          (fun sub => room.players.any (fun p => p.id = sub.playerId))).map
            (fun sub => sub.playerId)).toFinset.card :=
        (List.toFinset_card_of_nodup hmapnd).symm
    _ ≤ ((room.players.map Player.id).toFinset.erase het).card :=
        Finset.card_le_card hss
    _ = (room.players.map Player.id).toFinset.card - 1 :=
        Finset.card_erase_of_mem (List.mem_toFinset.mpr hmem)
    _ ≤ (room.players.map Player.id).length - 1 :=
        Nat.sub_le_sub_right (List.toFinset_card_le _) 1
    _ = room.players.length - 1 := by rw [List.length_map]

-- ── Claim C1 ───────────────────────────────────────────────────────────────

/-- C1 (amended): for every reachable room state, no two submissions share a
`playerId`, and the current hetman's id never appears as the `playerId` of
any submission — preserved by every operation, including `submitCard`, the
forced-submission timer callback, and `replaceWithBot` followed by bot
re-scheduling.  The count bound holds in the amended form: the submissions
whose `playerId` belongs to a *current* player number at most
`players.length - 1` whenever the hetman is a current player.  (The raw
bound `submissions.length ≤ players.length - 1` of the original claim fails:
see `C1_count_bound_counterexample`.) -/
theorem C1_submissions_invariant (env : CardEnv) (s : GState)
    (h : ReachableFromInit env s) :
    ((s.1.submissions.map (fun sub => sub.playerId)).Nodup) ∧
    (∀ sub ∈ s.1.submissions, some sub.playerId ≠ s.1.hetmanId) ∧
    (∀ het, s.1.hetmanId = some het → het ∈ s.1.players.map Player.id →
      (s.1.submissions.filter
        (fun sub => s.1.players.any (fun p => p.id = sub.playerId))).length ≤
        s.1.players.length - 1) := by
  have hi := submissionInv_of_reachable env s h
  exact ⟨hi.1, hi.2.1, fun het hhet hmem =>
    submission_count_bound s.1 hi het hhet hmem⟩

-- A concrete play through the state machine, used both to witness the C1
-- theorem and to exhibit the violation of the raw count bound.  Deck
-- contents are external data; `cRid` is the identity random source (the
-- Fisher–Yates shuffle leaves the deck order unchanged under it).

def cEnv : CardEnv :=
  { blackCards := ["b0", "b1", "b2", "b3"]
    whiteCards := (List.range 40).map (fun n => "w" ++ toString n) }

def cRid : Nat → Nat := fun i => i

/-- Host A creates the room. -/
def cS0 : GState := initState cEnv "CEXROM" "uA" "tA" "A" DEFAULT_GAME_SETTINGS 0

/-- B joins. -/
def cS1 : GState :=
  ((joinRoom "uB" "tB" cS0.1 cS0.2 "B" none).room,
   (joinRoom "uB" "tB" cS0.1 cS0.2 "B" none).world)

/-- C joins. -/
def cS2 : GState :=
  ((joinRoom "uC" "tC" cS1.1 cS1.2 "C" none).room,
   (joinRoom "uC" "tC" cS1.1 cS1.2 "C" none).world)

/-- Host starts the game; A becomes hetman. -/
def cS3 : GState :=
  ((startGame cEnv cRid cRid cS2.1 cS2.2).room,
   (startGame cEnv cRid cRid cS2.1 cS2.2).world)

/-- Round one is dealt. -/
def cS4 : GState := dealRound cEnv cRid cRid cS3.1 cS3.2

/-- Hetman A picks the prompt "b0"; phase becomes submitting. -/
def cS5 : GState :=
  ((pickBlackCard cS4.1 cS4.2 "uA" "b0").room,
   (pickBlackCard cS4.1 cS4.2 "uA" "b0").world)

/-- B submits "w10". -/
def cS6 : GState :=
  ((submitCard "s1" cRid cS5.1 cS5.2 "uB" "w10").room,
   (submitCard "s1" cRid cS5.1 cS5.2 "uB" "w10").world)

/-- B is replaced with a bot (fresh id "uB2"); B's submission stays recorded
under the departed id "uB". -/
def cS7 : GState :=
  (((replaceWithBot "uB2" "tB2" cS6.1 cS6.2 "uB").1).room,
   ((replaceWithBot "uB2" "tB2" cS6.1 cS6.2 "uB").1).world)

/-- Bot re-scheduling after the replacement arms a submit timer for "uB2". -/
def cS8 : GState := scheduleBotActionsAfterDeal cS7.1 cS7.2

/-- The bot submit timer fires: "uB2" has no submission under its fresh id,
so the bot submits again — a second submission from the same seat. -/
def cS9 : GState := fireBotSubmitTimer "s2" cRid 0 cS8.1 cS8.2 "uB2" 2

/-- C submits "w20": the room now holds 3 submissions with 3 players. -/
def cS10 : GState :=
  ((submitCard "s3" cRid cS9.1 cS9.2 "uC" "w20").room,
   (submitCard "s3" cRid cS9.1 cS9.2 "uC" "w20").world)

/-- C1 witness: the invariant theorem applied to a concrete freshly created
room. -/
theorem C1_submissions_invariant_witness :
    ((cS0.1.submissions.map (fun sub => sub.playerId)).Nodup) ∧
    (∀ sub ∈ cS0.1.submissions, some sub.playerId ≠ cS0.1.hetmanId) ∧
    (∀ het, cS0.1.hetmanId = some het → het ∈ cS0.1.players.map Player.id →
      (cS0.1.submissions.filter
        (fun sub => cS0.1.players.any (fun p => p.id = sub.playerId))).length ≤
        cS0.1.players.length - 1) :=
  C1_submissions_invariant cEnv cS0
    ⟨"CEXROM", "uA", "tA", "A", DEFAULT_GAME_SETTINGS, 0,
      Relation.ReflTransGen.refl⟩

/-- C1 counterexample: the raw bound `submissions.length ≤ players.length - 1`
of the claim as stated is violated in a reachable state.  After `submitCard`
by B, `replaceWithBot` of B, bot re-scheduling and the bot's forced second
submission, C's submission brings the count to 3 with 3 players. -/
theorem C1_count_bound_counterexample :
    ReachableFromInit cEnv cS10 ∧
    cS10.1.submissions.length = 3 ∧
    cS10.1.players.length = 3 ∧
    ¬ (cS10.1.submissions.length ≤ cS10.1.players.length - 1) := by
  refine ⟨⟨"CEXROM", "uA", "tA", "A", DEFAULT_GAME_SETTINGS, 0, ?_⟩, ?_, ?_, ?_⟩
  · exact Relation.ReflTransGen.tail (Relation.ReflTransGen.tail
      (Relation.ReflTransGen.tail (Relation.ReflTransGen.tail
        (Relation.ReflTransGen.tail (Relation.ReflTransGen.tail
          (Relation.ReflTransGen.tail (Relation.ReflTransGen.tail
            (Relation.ReflTransGen.tail (Relation.ReflTransGen.tail
              Relation.ReflTransGen.refl
              (Step.joinStep "uB" "tB" "B" none cS0.1 cS0.2))
              (Step.joinStep "uC" "tC" "C" none cS1.1 cS1.2))
            (Step.startGameStep cRid cRid cS2.1 cS2.2))
          (Step.dealRoundStep cRid cRid cS3.1 cS3.2))
        (Step.pickBlackCardStep "uA" "b0" cS4.1 cS4.2))
        (Step.submitCardStep "s1" cRid "uB" "w10" cS5.1 cS5.2))
      (Step.replaceWithBotStep "uB2" "tB2" "uB" cS6.1 cS6.2 (by decide)))
      (Step.scheduleBotActionsAfterDealStep cS7.1 cS7.2))
      (Step.fireBotSubmitTimerStep "s2" cRid 0 "uB2" 2 cS8.1 cS8.2 (by decide)))
      (Step.submitCardStep "s3" cRid "uC" "w20" cS9.1 cS9.2)
  · decide
  · decide
  · decide

-- ── Claims C4 and C10: submitCard rejection and atomicity ──────────────────

/-- On any thrown error, `submitCard` returns the input state unchanged (the
guards all precede the first mutation in the source). -/
theorem submitCard_frame (uuid : String) (shufR : Nat → Nat) (r : Room)
    (w : World) (pid card : String) :
    (submitCard uuid shufR r w pid card).error = none ∨
    ((submitCard uuid shufR r w pid card).room = r ∧
     (submitCard uuid shufR r w pid card).world = w) := by
  unfold submitCard
  by_cases h1 : r.phase ≠ GamePhase.submitting
  · rw [if_pos h1]
    exact Or.inr ⟨rfl, rfl⟩
  · rw [if_neg h1]
    cases hfind : r.players.find? (fun p => p.id = pid) with
    | none => exact Or.inr ⟨rfl, rfl⟩
    | some player =>
      dsimp only
      by_cases hhet : some pid = r.hetmanId
      · rw [if_pos hhet]
        exact Or.inr ⟨rfl, rfl⟩
      · rw [if_neg hhet]
        by_cases hdup : r.submissions.any (fun s => s.playerId = pid) = true
        · rw [if_pos hdup]
          exact Or.inr ⟨rfl, rfl⟩
        · rw [if_neg hdup]
          by_cases hhand : ¬ player.hand.contains card = true
          · rw [if_pos hhand]
            exact Or.inr ⟨rfl, rfl⟩
          · rw [if_neg hhand]
            split
            · exact Or.inl rfl
            · exact Or.inl rfl

/-- `submitCard` throws whenever the phase is wrong, the caller is the
hetman, the caller already submitted, or the card is not in the caller's
hand (the last disjunct also covers an unknown caller, rejected with
`PLAYER_NOT_FOUND`). -/
theorem submitCard_rejects (uuid : String) (shufR : Nat → Nat) (r : Room)
    (w : World) (pid card : String)
    (h : r.phase ≠ GamePhase.submitting ∨ r.hetmanId = some pid ∨
         (∃ s ∈ r.submissions, s.playerId = pid) ∨
         (∀ p ∈ r.players, p.id = pid → card ∉ p.hand)) :
    (submitCard uuid shufR r w pid card).error.isSome := by
  unfold submitCard
  by_cases h1 : r.phase ≠ GamePhase.submitting
  · rw [if_pos h1]
    rfl
  · rw [if_neg h1]
    cases hfind : r.players.find? (fun p => p.id = pid) with
    | none => rfl
    | some player =>
      dsimp only
      by_cases hhet : some pid = r.hetmanId
      · rw [if_pos hhet]
        rfl
      · rw [if_neg hhet]
        by_cases hdup : r.submissions.any (fun s => s.playerId = pid) = true
        · rw [if_pos hdup]
          rfl
        · rw [if_neg hdup]
          by_cases hhand : ¬ player.hand.contains card = true
          · rw [if_pos hhand]
            rfl
          · rw [if_neg hhand]
            exfalso
            have hmem : player ∈ r.players := List.mem_of_find?_eq_some hfind
            have hpidEq : player.id = pid := by
              have := List.find?_some hfind
              simpa using this
            have hin : card ∈ player.hand := by
              have hc := not_not.mp hhand
              simpa using hc
            rcases h with hc | hc | hc | hc
            · exact h1 hc
            · exact hhet hc.symm
            · apply hdup
              obtain ⟨s, hs, hsp⟩ := hc
              simp only [List.any_eq_true, decide_eq_true_eq]
              exact ⟨s, hs, hsp⟩
            · exact hc player hmem hpidEq hin

/-- After a successful `submitCard`, a second submit by the same player in
the same round is rejected: the first call appended a submission keyed by
`pid`. -/
theorem submitCard_second_rejected (uuid uuid2 : String)
    (shufR shufR2 : Nat → Nat) (r : Room) (w : World) (pid card card2 : String)
    (hok : (submitCard uuid shufR r w pid card).error = none) :
    (submitCard uuid2 shufR2 (submitCard uuid shufR r w pid card).room
      (submitCard uuid shufR r w pid card).world pid card2).error.isSome := by
  apply submitCard_rejects
  right; right; left
  unfold submitCard at hok ⊢
  by_cases h1 : r.phase ≠ GamePhase.submitting
  · rw [if_pos h1] at hok
    cases hok
  · rw [if_neg h1] at hok ⊢
    cases hfind : r.players.find? (fun p => p.id = pid) with
    | none =>
      rw [hfind] at hok
      cases hok
    | some player =>
      rw [hfind] at hok
      dsimp only at hok ⊢
      by_cases hhet : some pid = r.hetmanId
      · rw [if_pos hhet] at hok
        cases hok
      · rw [if_neg hhet] at hok ⊢
        by_cases hdup : r.submissions.any (fun s => s.playerId = pid) = true
        · rw [if_pos hdup] at hok
          cases hok
        · rw [if_neg hdup] at hok ⊢
          by_cases hhand : ¬ player.hand.contains card = true
          · rw [if_pos hhand] at hok
            cases hok
          · rw [if_neg hhand] at hok ⊢
            split
            · exact ⟨⟨uuid, pid, card, false⟩, by simp, rfl⟩
            · exact ⟨⟨uuid, pid, card, false⟩, by simp, rfl⟩

-- Concrete rooms used by the C4 / C10 / C5 / C6 witnesses.

def wPlayerA : Player :=
  { id := "uA", token := "tA", name := "A", isBot := false, isConnected := true
    isHost := true, points := 0, hand := [] }

def wPlayerB : Player :=
  { id := "uB", token := "tB", name := "B", isBot := false, isConnected := true
    isHost := false, points := 0, hand := ["x", "y"] }

/-- A two-player room in submitting phase; A is the hetman. -/
def wRoomA : Room :=
  { id := "WROOM1", hostId := "uA", players := [wPlayerA, wPlayerB]
    phase := .submitting, settings := DEFAULT_GAME_SETTINGS, currentRound := 1
    hetmanId := some "uA", currentBlackCard := some "b", blackCardChoices := []
    submissions := [], blackDeck := [], whiteDeck := [], createdAt := 0
    lastActivityAt := 0, submissionDeadline := none, timers := [] }

/-- The same room still in the lobby. -/
def wRoomLobby : Room := { wRoomA with phase := GamePhase.lobby }

def wWorld : World :=
  { now := 0, pending := [], nextTimerId := 0, events := [], roomsDeleted := [] }

/-- C4: `submitCard(playerId, card)` throws a typed domain error — and
records no submission — whenever the room phase is not submitting, or the
caller is the current hetman, or the caller already has a submission this
round, or the card is not currently in the caller's hand; in particular a
second submit by the same player in one round is always rejected. -/
theorem C4_submitCard_rejections (uuid uuid2 : String)
    (shufR shufR2 : Nat → Nat) (r : Room) (w : World) (pid card card2 : String) :
    ((r.phase ≠ GamePhase.submitting ∨ r.hetmanId = some pid ∨
      (∃ s ∈ r.submissions, s.playerId = pid) ∨
      (∀ p ∈ r.players, p.id = pid → card ∉ p.hand)) →
      (submitCard uuid shufR r w pid card).error.isSome ∧
      (submitCard uuid shufR r w pid card).room.submissions = r.submissions) ∧
    ((submitCard uuid shufR r w pid card).error = none →
      (submitCard uuid2 shufR2 (submitCard uuid shufR r w pid card).room
        (submitCard uuid shufR r w pid card).world pid card2).error.isSome) := by
  constructor
  · intro h
    have herr := submitCard_rejects uuid shufR r w pid card h
    refine ⟨herr, ?_⟩
    rcases submitCard_frame uuid shufR r w pid card with hnone | ⟨hroom, _⟩
    · rw [hnone] at herr
      cases herr
    · rw [hroom]
  · intro hok
    exact submitCard_second_rejected uuid uuid2 shufR shufR2 r w pid card card2 hok

/-- C4 witness: in the concrete lobby-phase room the submit is rejected with
the submissions list unchanged, and in the concrete submitting-phase room a
first submit succeeds while the immediate second submit by the same player
is rejected. -/
theorem C4_submitCard_rejections_witness :
    ((submitCard "s" cRid wRoomLobby wWorld "uB" "x").error.isSome ∧
     (submitCard "s" cRid wRoomLobby wWorld "uB" "x").room.submissions =
       wRoomLobby.submissions) ∧
    (submitCard "s2" cRid (submitCard "s" cRid wRoomA wWorld "uB" "x").room
      (submitCard "s" cRid wRoomA wWorld "uB" "x").world "uB" "y").error.isSome :=
  ⟨(C4_submitCard_rejections "s" "s2" cRid cRid wRoomLobby wWorld "uB" "x" "x").1
      (Or.inl (by decide)),
   (C4_submitCard_rejections "s" "s2" cRid cRid wRoomA wWorld "uB" "x" "y").2
      (by decide)⟩

/-- C10: `submitCard` is atomic on failure — when it throws, the room (and
the surrounding event-loop state) is exactly as before the call: same phase,
same submissions, and every player's hand, points and identity unchanged. -/
theorem C10_submitCard_atomic (uuid : String) (shufR : Nat → Nat) (r : Room)
    (w : World) (pid card : String)
    (herr : (submitCard uuid shufR r w pid card).error.isSome) :
    (submitCard uuid shufR r w pid card).room = r ∧
    (submitCard uuid shufR r w pid card).world = w := by
  rcases submitCard_frame uuid shufR r w pid card with hnone | hpair
  · rw [hnone] at herr
    cases herr
  · exact hpair

/-- C10 witness: a concrete failing submit (wrong phase) leaves the concrete
room and world untouched. -/
theorem C10_submitCard_atomic_witness :
    (submitCard "s" cRid wRoomLobby wWorld "uB" "x").room = wRoomLobby ∧
    (submitCard "s" cRid wRoomLobby wWorld "uB" "x").world = wWorld :=
  C10_submitCard_atomic "s" cRid wRoomLobby wWorld "uB" "x" (by decide)

-- ── Claim C2: the pick-a-prompt command is not dispatched ──────────────────

/-- C2 (code bug): for every room, player and payload — in particular for
the connected hetman in hetmanPicking phase sending a card among the offered
choices — the dispatcher answers `"pick_black_card"` with the unknown-command
error and leaves the room unchanged, never invoking the Engine's
`pickBlackCard`: the `dispatch` switch (and `CLIENT_EVENTS`) has no case for
it, although the client sends exactly this event. -/
theorem C2_pick_black_card_not_dispatched (env : CardEnv) (rnd : DispatchRands)
    (r : Room) (w : World) (pid : String) (payload : ClientPayload) :
    (dispatch env rnd r w pid "pick_black_card" payload).room = r ∧
    (dispatch env rnd r w pid "pick_black_card" payload).error = none ∧
    (dispatch env rnd r w pid "pick_black_card" payload).world.events =
      w.events ++ [Sent.toPlayer pid
        (Msg.errorMsg "INVALID_PAYLOAD" "Unknown event: pick_black_card")] :=
  ⟨rfl, rfl, rfl⟩

-- ── Claim C8: the public view leaks no secrets ─────────────────────────────

/-- C8: the public view depends neither on any player's reconnect token nor
on any player's hand (erasing both changes nothing), submissions appear only
as anonymous `{id, card}` pairs, and the full `{playerId, card, isWinner}`
records are exposed exactly when the phase is reveal, roundEnd or gameOver. -/
theorem C8_public_view_no_secrets (room : Room) :
    getPublicRoom room = getPublicRoom { room with
      players := room.players.map (fun p => { p with token := "", hand := [] }) } ∧
    (getPublicRoom room).submissions =
      room.submissions.map (fun s => ⟨s.anonymousId, s.card⟩) ∧
    (getPublicRoom room).revealedSubmissions =
      (if room.phase = .reveal ∨ room.phase = .roundEnd ∨ room.phase = .gameOver
       then room.submissions else []) := by
  refine ⟨?_, rfl, rfl⟩
  unfold getPublicRoom
  dsimp only
  rw [List.map_map]
  rfl

-- ── Claim C9: bot-action timers keyed by seat and action type ──────────────

/-- C9 (amended): `scheduleBotHetmanTurn` and `scheduleBotBlackCardPick` are
no-ops while a timer for that seat/action is already registered, so repeated
invocations never arm a second timer; `scheduleBotTurn` however always arms
a fresh live timer and overwrites the registry key, so repeated submit-turn
scheduling leaves multiple live timers for the same seat (their duplicate
firings are neutralized only by the already-submitted guard). -/
theorem C9_bot_timer_scheduling (r : Room) (w : World) (b : String) :
    ((r.timers.lookup ("bot_judge:" ++ b)).isSome →
      scheduleBotHetmanTurn r w b = (r, w)) ∧
    ((r.timers.lookup ("bot_pick:" ++ b)).isSome →
      scheduleBotBlackCardPick r w b = (r, w)) ∧
    ((scheduleBotTurn r w b).2.pending =
        w.pending ++ [(w.nextTimerId, TimerTag.botSubmit b)] ∧
     (scheduleBotTurn r w b).1.timers =
        timersSet r.timers ("bot_submit:" ++ b) w.nextTimerId) := by
  refine ⟨?_, ?_, rfl, rfl⟩
  · intro h
    unfold scheduleBotHetmanTurn
    rw [if_pos h]
  · intro h
    unfold scheduleBotBlackCardPick
    rw [if_pos h]

/-- A room with judge and pick timers already registered for seat "uB". -/
def qRoom : Room :=
  { wRoomA with timers := [("bot_judge:uB", 5), ("bot_pick:uB", 6)] }

/-- C9 witness: with seat "uB" already scheduled for judging and for the
prompt pick, re-invoking either scheduler changes nothing. -/
theorem C9_bot_timer_scheduling_witness :
    scheduleBotHetmanTurn qRoom wWorld "uB" = (qRoom, wWorld) ∧
    scheduleBotBlackCardPick qRoom wWorld "uB" = (qRoom, wWorld) :=
  ⟨(C9_bot_timer_scheduling qRoom wWorld "uB").1 (by decide),
   (C9_bot_timer_scheduling qRoom wWorld "uB").2.1 (by decide)⟩

/-- C9 counterexample: while a submit timer for seat "uB" is live (one armed
timer after the first call), a repeated `scheduleBotTurn` arms a second live
timer for the same seat and action type. -/
theorem C9_double_arm_counterexample :
    ((scheduleBotTurn wRoomA wWorld "uB").2.pending.filter
      (fun t => t.2 = TimerTag.botSubmit "uB")).length = 1 ∧
    ((scheduleBotTurn (scheduleBotTurn wRoomA wWorld "uB").1
        (scheduleBotTurn wRoomA wWorld "uB").2 "uB").2.pending.filter
      (fun t => t.2 = TimerTag.botSubmit "uB")).length = 2 := by
  exact ⟨by decide, by decide⟩

-- ── Claim C3: dealRound hand refill ────────────────────────────────────────

/-- The hand-refill loop fills every hand to exactly `HAND_SIZE` provided no
hand exceeds `HAND_SIZE` and the deck holds at least the total shortfall. -/
theorem refillHands_full :
    ∀ (ps : List Player) (deck : List String),
      (∀ p ∈ ps, p.hand.length ≤ HAND_SIZE) →
      (ps.map (fun p => HAND_SIZE - p.hand.length)).sum ≤ deck.length →
      ∀ q ∈ (refillHands ps deck).1, q.hand.length = HAND_SIZE := by
  intro ps
  induction ps with
  | nil =>
    intro deck _ _ q hq
    cases hq
  | cons p ps ih =>
    intro deck hb hs q hq
    simp only [List.map_cons, List.sum_cons] at hs
    have hneed : HAND_SIZE - p.hand.length ≤ deck.length :=
      le_trans (Nat.le_add_right _ _) hs
    unfold refillHands at hq
    dsimp only at hq
    rcases List.mem_cons.mp hq with rfl | hq
    · simp only [List.length_append, List.length_take]
      rw [min_eq_left hneed]
      have := hb p (List.mem_cons_self p ps)
      omega
    · refine ih (deck.drop (HAND_SIZE - p.hand.length))
        (fun a ha => hb a (List.mem_cons_of_mem p ha)) ?_ q hq
      simp only [List.length_drop]
      omega

/-- C3 (amended): `dealRound` reshuffles a fresh full deck only when the
answer deck is empty at the start of dealing (never mid-refill), and every
player's hand reaches exactly the target size of 10 cards provided no hand
exceeds 10 and the deck after that initial refill-if-empty holds at least
the total shortfall; otherwise earlier-seated players are topped up first
and later hands stay short (see `C3_deal_counterexample`). -/
theorem C3_dealRound_refill (env : CardEnv) (randW randB : Nat → Nat)
    (r : Room) (w : World)
    (hb : ∀ p ∈ r.players, p.hand.length ≤ HAND_SIZE)
    (hs : (r.players.map (fun p => HAND_SIZE - p.hand.length)).sum ≤
          (refillDeck randW r.whiteDeck env.whiteCards).length) :
    (∀ q ∈ (dealRound env randW randB r w).1.players,
      q.hand.length = HAND_SIZE) ∧
    (r.whiteDeck ≠ [] →
      refillDeck randW r.whiteDeck env.whiteCards = r.whiteDeck) := by
  constructor
  · intro q hq
    refine refillHands_full r.players
      (refillDeck randW r.whiteDeck env.whiteCards) hb hs q ?_
    exact hq
  · intro hne
    unfold refillDeck
    rw [if_neg (by simpa using List.length_pos_of_ne_nil hne |>.ne.symm)]

/-- C3 witness: dealing the first round of the concrete three-player game
(empty hands, 40-card deck) fills every hand to exactly 10. -/
theorem C3_dealRound_refill_witness :
    (∀ q ∈ cS4.1.players, q.hand.length = HAND_SIZE) ∧
    (cS3.1.whiteDeck ≠ [] →
      refillDeck cRid cS3.1.whiteDeck cEnv.whiteCards = cS3.1.whiteDeck) :=
  C3_dealRound_refill cEnv cRid cRid cS3.1 cS3.2 (by decide) (by decide)

/-- A one-player room whose answer deck holds a single card. -/
def c3Room : Room :=
  { wRoomA with players := [wPlayerA], whiteDeck := ["w1"], blackDeck := [] }

/-- C3 counterexample: with one player holding no cards and one card left in
the (non-empty, hence never reshuffled) answer deck, `dealRound` returns a
hand of 1 card, not 10 — refuting the claim for arbitrary remaining deck
sizes. -/
theorem C3_deal_counterexample :
    ((dealRound cEnv cRid cRid c3Room wWorld).1.players.map
      (fun p => p.hand.length)) = [1] ∧ (1 : Nat) ≠ HAND_SIZE := by
  exact ⟨by decide, by decide⟩

-- ── Claim C5: selectWinner ─────────────────────────────────────────────────

theorem updateFirst_cons_pos {α : Type} {p : α → Bool} {f : α → α} {a : α}
    {l : List α} (h : p a = true) :
    updateFirst p f (a :: l) = f a :: l := by
  simp [updateFirst, h]

theorem updateFirst_cons_neg {α : Type} {p : α → Bool} {f : α → α} {a : α}
    {l : List α} (h : p a = false) :
    updateFirst p f (a :: l) = a :: updateFirst p f l := by
  simp [updateFirst, h]

/-- With a duplicate-free key list, updating the first match updates exactly
the matching elements. -/
theorem updateFirst_eq_map_of_nodup {α : Type} (key : α → String) (v : String)
    (f : α → α) : ∀ l : List α, (l.map key).Nodup →
      updateFirst (fun a => key a = v) f l =
      l.map (fun a => if key a = v then f a else a) := by
  intro l
  induction l with
  | nil => intro _; rfl
  | cons a l ih =>
    intro hnd
    simp only [List.map_cons, List.nodup_cons] at hnd
    by_cases h : key a = v
    · rw [@updateFirst_cons_pos α (fun x => decide (key x = v)) f a l (by simp [h]),
        List.map_cons, if_pos h]
      have hmap : l.map (fun b => if key b = v then f b else b) = l := by
        conv_rhs => rw [← List.map_id l]
        refine List.map_congr_left ?_
        intro b hb
        have hne : ¬ key b = v := fun hc =>
          hnd.1 (List.mem_map.mpr ⟨b, hb, by rw [hc, h]⟩)
        simp [hne]
      rw [hmap]
    · rw [@updateFirst_cons_neg α (fun x => decide (key x = v)) f a l (by simp [h]),
        List.map_cons, if_neg h, ih hnd.2]

/-- C5: `selectWinner(hetmanId, anonymousId)` succeeds exactly when the
phase is judging, the caller is the current hetman, and the anonymous id
resolves to a submission (any other caller is rejected); on success it moves
the phase to reveal, increments the submitting player's points by exactly one
leaving every other player untouched, and marks exactly that submission as
the winner. -/
theorem C5_selectWinner_correct (r : Room) (w : World) (caller subId : String)
    (hndP : (r.players.map Player.id).Nodup)
    (hndA : (r.submissions.map (fun s => s.anonymousId)).Nodup) :
    ((selectWinner r w caller subId).error = none ↔
      (r.phase = GamePhase.judging ∧ r.hetmanId = some caller ∧
       ∃ s ∈ r.submissions, s.anonymousId = subId)) ∧
    (∀ sub, r.submissions.find? (fun s => s.anonymousId = subId) = some sub →
      (selectWinner r w caller subId).error = none →
      ((selectWinner r w caller subId).room.phase = GamePhase.reveal ∧
       (selectWinner r w caller subId).room.players =
         r.players.map (fun p =>
           if p.id = sub.playerId then { p with points := p.points + 1 } else p) ∧
       (selectWinner r w caller subId).room.submissions =
         r.submissions.map (fun s =>
           if s.anonymousId = subId then { s with isWinner := true } else s))) := by
  unfold selectWinner
  by_cases h1 : r.phase ≠ GamePhase.judging
  · rw [if_pos h1]
    constructor
    · constructor
      · intro hc
        exact Option.noConfusion hc
      · intro hc
        exact absurd hc.1 h1
    · intro sub _ hok
      exact Option.noConfusion hok
  · rw [if_neg h1]
    by_cases h2 : some caller ≠ r.hetmanId
    · rw [if_pos h2]
      constructor
      · constructor
        · intro hc
          exact Option.noConfusion hc
        · intro hc
          exact absurd hc.2.1.symm h2
      · intro sub _ hok
        exact Option.noConfusion hok
    · rw [if_neg h2]
      cases hfind : r.submissions.find? (fun s => s.anonymousId = subId) with
      | none =>
        constructor
        · constructor
          · intro hc
            exact Option.noConfusion hc
          · rintro ⟨_, _, s, hs, hanon⟩
            have hnot := List.find?_eq_none.mp hfind s hs
            simp only [decide_eq_true_eq] at hnot
            exact absurd hanon hnot
        · intro sub hfind2 _
          exact Option.noConfusion hfind2
      | some sub' =>
        dsimp only
        constructor
        · constructor
          · intro _
            refine ⟨not_not.mp h1, (not_not.mp h2).symm, sub',
              List.mem_of_find?_eq_some hfind, ?_⟩
            have := List.find?_some hfind
            simpa using this
          · intro _
            rfl
        · intro sub hfind2 _
          injection hfind2 with hsub
          subst hsub
          refine ⟨rfl, ?_, ?_⟩
          · exact updateFirst_eq_map_of_nodup Player.id sub'.playerId
              (fun p => { p with points := p.points + 1 }) r.players hndP
          · exact updateFirst_eq_map_of_nodup (fun s => s.anonymousId) subId
              (fun s => { s with isWinner := true }) r.submissions hndA

/-- A two-player room in judging phase holding B's submission. -/
def wRoomJ : Room :=
  { wRoomA with
      phase := GamePhase.judging
      submissions := [{ anonymousId := "anon1", playerId := "uB", card := "x",
                        isWinner := false }] }

/-- C5 witness: the characterization applied to the concrete judging room,
with the hetman A picking B's submission. -/
theorem C5_selectWinner_correct_witness :
    ((selectWinner wRoomJ wWorld "uA" "anon1").error = none ↔
      (wRoomJ.phase = GamePhase.judging ∧ wRoomJ.hetmanId = some "uA" ∧
       ∃ s ∈ wRoomJ.submissions, s.anonymousId = "anon1")) ∧
    (∀ sub, wRoomJ.submissions.find? (fun s => s.anonymousId = "anon1") = some sub →
      (selectWinner wRoomJ wWorld "uA" "anon1").error = none →
      ((selectWinner wRoomJ wWorld "uA" "anon1").room.phase = GamePhase.reveal ∧
       (selectWinner wRoomJ wWorld "uA" "anon1").room.players =
         wRoomJ.players.map (fun p =>
           if p.id = sub.playerId then { p with points := p.points + 1 } else p) ∧
       (selectWinner wRoomJ wWorld "uA" "anon1").room.submissions =
         wRoomJ.submissions.map (fun s =>
           if s.anonymousId = "anon1" then { s with isWinner := true } else s))) :=
  C5_selectWinner_correct wRoomJ wWorld "uA" "anon1" (by decide) (by decide)

-- ── Claim C7: endGame idempotence ──────────────────────────────────────────

/-- Recognizer for the final-results broadcast. -/
def isGameOverMsg : Sent → Bool
  | Sent.toRoom _ (Msg.gameOverMsg _ _) => true
  | _ => false

/-- How many final-results broadcasts an event log holds. -/
def gameOverCount (evs : List Sent) : Nat := (evs.filter isGameOverMsg).length

/-- `endGame` on a room already in gameOver is a no-op: same state, nothing
broadcast, nothing scheduled. -/
theorem endGame_noop (r : Room) (w : World) (reason : String)
    (h : r.phase = GamePhase.gameOver) : endGame r w reason = (r, w) := by
  unfold endGame
  rw [if_pos h]

theorem foldl_clearTimeout_nextTimerId :
    ∀ (ts : List (String × Nat)) (w : World),
      (ts.foldl (fun w kv => clearTimeoutW w kv.2) w).nextTimerId =
        w.nextTimerId := by
  intro ts
  induction ts with
  | nil => exact fun w => rfl
  | cons kv ts ih => exact fun w => ih (clearTimeoutW w kv.2)

theorem foldl_clearTimeout_events :
    ∀ (ts : List (String × Nat)) (w : World),
      (ts.foldl (fun w kv => clearTimeoutW w kv.2) w).events = w.events := by
  intro ts
  induction ts with
  | nil => exact fun w => rfl
  | cons kv ts ih => exact fun w => ih (clearTimeoutW w kv.2)

theorem mem_foldl_clearTimeout :
    ∀ (ts : List (String × Nat)) (w : World) (t : Nat × TimerTag),
      t ∈ (ts.foldl (fun w kv => clearTimeoutW w kv.2) w).pending ↔
      (t ∈ w.pending ∧ ∀ kv ∈ ts, t.1 ≠ kv.2) := by
  intro ts
  induction ts with
  | nil =>
    intro w t
    simp
  | cons kv ts ih =>
    intro w t
    rw [List.foldl_cons, ih (clearTimeoutW w kv.2) t]
    unfold clearTimeoutW
    simp only [List.mem_filter, List.mem_cons, decide_eq_true_eq]
    constructor
    · rintro ⟨⟨hmem, hne⟩, hall⟩
      exact ⟨hmem, fun kv' h => h.elim (fun he => he ▸ hne) (fun hm => hall kv' hm)⟩
    · rintro ⟨hmem, hall⟩
      exact ⟨⟨hmem, hall kv (Or.inl rfl)⟩, fun kv' hm => hall kv' (Or.inr hm)⟩

theorem orElse_none_right {α : Type} {a : Option α} {f : Unit → Option α}
    (h : (a.orElse f) = none) : f () = none := by
  cases a with
  | none => simpa [Option.orElse] using h
  | some x => simp [Option.orElse] at h

/-- What an effective `endGame` call does: phase to gameOver, fresh id
supply advanced once, registry reduced to the cleanup timer, exactly one
more final broadcast, and the pending set is the cleaned-up one plus the
cleanup timer. -/
theorem endGame_run (r : Room) (w : World) (reason : String)
    (hns : r.phase ≠ GamePhase.gameOver) (hne : r.players ≠ []) :
    (endGame r w reason).1.phase = GamePhase.gameOver ∧
    (endGame r w reason).1.timers = [("cleanup", w.nextTimerId)] ∧
    gameOverCount (endGame r w reason).2.events = gameOverCount w.events + 1 ∧
    (endGame r w reason).2.pending =
      (r.timers.foldl (fun w kv => clearTimeoutW w kv.2) w).pending ++
        [(w.nextTimerId, TimerTag.cleanup)] := by
  unfold endGame
  rw [if_neg hns]
  dsimp only
  split
  · rename_i hwp
    exact absurd (List.head?_eq_none_iff.mp (orElse_none_right hwp)) hne
  · rename_i wp hwp
    refine ⟨rfl, ?_, ?_, ?_⟩
    · simp [timersSet, timersErase, clearAllTimers, setTimeoutW, emitRoom,
        broadcastRoomState, foldl_clearTimeout_nextTimerId]
    · unfold gameOverCount
      simp [emitRoom, broadcastRoomState, setTimeoutW, clearAllTimers,
        foldl_clearTimeout_events, List.filter_append, isGameOverMsg]
    · simp [setTimeoutW, emitRoom, broadcastRoomState, clearAllTimers,
        foldl_clearTimeout_nextTimerId]

/-- C7: `endGame` is idempotent — a call on a gameOver room is an exact
no-op, so two calls (any reasons) produce exactly one final-results
broadcast and arm the room-deletion cleanup timer exactly once; an
effective call cancels every timer in the room's registry.  The two
well-formedness hypotheses say timer ids recorded anywhere are below the
fresh-id supply, which holds in every reachable world. -/
theorem C7_endGame_idempotent (r : Room) (w : World) (reason reason2 : String)
    (hns : r.phase ≠ GamePhase.gameOver) (hne : r.players ≠ [])
    (hreg : ∀ kv ∈ r.timers, kv.2 < w.nextTimerId)
    (hwf : ∀ t ∈ w.pending, t.1 < w.nextTimerId) :
    (endGame (endGame r w reason).1 (endGame r w reason).2 reason2 =
      endGame r w reason) ∧
    gameOverCount (endGame r w reason).2.events = gameOverCount w.events + 1 ∧
    (endGame r w reason).1.timers = [("cleanup", w.nextTimerId)] ∧
    ((endGame r w reason).2.pending.filter (fun t => w.nextTimerId ≤ t.1)) =
      [(w.nextTimerId, TimerTag.cleanup)] ∧
    (∀ kv ∈ r.timers, kv.2 ∉ (endGame r w reason).2.pending.map (fun t => t.1)) ∧
    (∀ (r' : Room) (w' : World) (reason' : String),
      r'.phase = GamePhase.gameOver → endGame r' w' reason' = (r', w')) := by
  obtain ⟨hph, htm, hcnt, hpend⟩ := endGame_run r w reason hns hne
  refine ⟨?_, hcnt, htm, ?_, ?_, fun r' w' reason' h => endGame_noop r' w' reason' h⟩
  · exact endGame_noop _ _ reason2 hph
  · rw [hpend, List.filter_append]
    have h1 : (r.timers.foldl (fun w kv => clearTimeoutW w kv.2) w).pending.filter
        (fun t => w.nextTimerId ≤ t.1) = [] := by
      rw [List.filter_eq_nil_iff]
      intro t ht
      have hmem := ((mem_foldl_clearTimeout r.timers w t).mp ht).1
      have := hwf t hmem
      simp only [decide_eq_true_eq]
      omega
    rw [h1]
    simp
  · intro kv hkv hmem
    rw [hpend] at hmem
    simp only [List.map_append, List.mem_append, List.map_cons, List.map_nil,
      List.mem_map, List.mem_singleton] at hmem
    rcases hmem with ⟨t, ht, hte⟩ | hcl
    · exact ((mem_foldl_clearTimeout r.timers w t).mp ht).2 kv hkv hte
    · have := hreg kv hkv
      omega

/-- C7 witness: the concrete submitting-phase room with a registered timer
and a live pending entry. -/
def c7Room : Room := { wRoomA with timers := [("session", 0)] }

def c7World : World :=
  { now := 0, pending := [(0, TimerTag.session)], nextTimerId := 1
    events := [], roomsDeleted := [] }

-- ── Claim C6: completing submitCard ────────────────────────────────────────

theorem cons_set_perm {α : Type} :
    ∀ (t : List α) (m : Nat) (a b : α), t.get? m = some b →
      (b :: t.set m a).Perm (a :: t) := by
  intro t
  induction t with
  | nil =>
    intro m a b hb
    cases m <;> cases hb
  | cons c t ih =>
    intro m a b hb
    cases m with
    | zero =>
      have hcb : c = b := by simpa using hb
      rw [List.set_cons_zero, ← hcb]
      exact List.Perm.swap a c t
    | succ m =>
      have hb' : t.get? m = some b := by simpa using hb
      rw [List.set_cons_succ]
      exact ((List.Perm.swap c b (t.set m a)).trans
        ((ih m a b hb').cons c)).trans (List.Perm.swap a c t)

theorem set_set_perm {α : Type} :
    ∀ (l : List α) (i j : Nat) (a b : α),
      l.get? i = some a → l.get? j = some b →
      ((l.set i b).set j a).Perm l := by
  intro l
  induction l with
  | nil =>
    intro i j a b ha _
    cases i <;> cases ha
  | cons c t ih =>
    intro i j a b ha hb
    cases i with
    | zero =>
      have hca : c = a := by simpa using ha
      rw [List.set_cons_zero]
      cases j with
      | zero =>
        rw [List.set_cons_zero, hca]
      | succ j =>
        have hb' : t.get? j = some b := by simpa using hb
        rw [List.set_cons_succ, hca]
        exact cons_set_perm t j a b hb'
    | succ i =>
      have ha' : t.get? i = some a := by simpa using ha
      rw [List.set_cons_succ]
      cases j with
      | zero =>
        have hcb : c = b := by simpa using hb
        rw [List.set_cons_zero, hcb]
        exact cons_set_perm t i b a ha'
      | succ j =>
        have hb' : t.get? j = some b := by simpa using hb
        rw [List.set_cons_succ]
        exact (ih i j a b ha' hb').cons c

theorem swapL_perm {α : Type} (l : List α) (i j : Nat) : (swapL l i j).Perm l := by
  unfold swapL
  cases ha : l.get? i with
  | none => exact List.Perm.refl l
  | some a =>
    cases hb : l.get? j with
    | none => exact List.Perm.refl l
    | some b => exact set_set_perm l i j a b ha hb

theorem fyAux_perm {α : Type} (rand : Nat → Nat) :
    ∀ (n : Nat) (l : List α), (fyAux rand n l).Perm l := by
  intro n
  induction n with
  | zero => exact fun l => List.Perm.refl l
  | succ n ih =>
    intro l
    exact (ih _).trans (swapL_perm l (n + 1) (rand (n + 1) % (n + 2)))

/-- The Fisher–Yates shuffle emits a permutation of its input whatever the
random source supplies. -/
theorem shuffleDeck_perm {α : Type} (rand : Nat → Nat) (l : List α) :
    (shuffleDeck rand l).Perm l :=
  fyAux_perm rand (l.length - 1) l

theorem filter_map_updateFirst {α β : Type} (p q : α → Bool) (f : α → α)
    (g : α → β) (hq : ∀ a, q (f a) = q a) (hg : ∀ a, g (f a) = g a) :
    ∀ l : List α, ((updateFirst p f l).filter q).map g = (l.filter q).map g := by
  intro l
  induction l with
  | nil => rfl
  | cons a l ih =>
    by_cases h : p a = true
    · rw [updateFirst_cons_pos h]
      by_cases hqa : q a = true
      · simp [List.filter_cons, hq, hg, hqa]
      · simp [List.filter_cons, hq, hqa]
    · rw [updateFirst_cons_neg (by simpa using h)]
      by_cases hqa : q a = true
      · simp [List.filter_cons, hqa, ih]
      · simp [List.filter_cons, hqa, ih]

theorem lookup_timersErase (ts : List (String × Nat)) (k : String) :
    (timersErase ts k).lookup k = none := by
  induction ts with
  | nil => rfl
  | cons kv ts ih =>
    unfold timersErase at ih ⊢
    by_cases h : kv.1 = k
    · simpa [List.filter_cons, h] using ih
    · simpa [List.filter_cons, h, List.lookup,
        show (k == kv.1) = false from by simpa using fun hc => h hc.symm] using ih

theorem clearTimer_lookup_none (r : Room) (w : World) (k : String) :
    ((clearTimer r w k).1.timers.lookup k) = none := by
  unfold clearTimer
  cases h : r.timers.lookup k with
  | none => simpa using h
  | some id => exact lookup_timersErase r.timers k

theorem clearTimeout_id_not_pending (w : World) (id : Nat) :
    id ∉ (clearTimeoutW w id).pending.map (fun t => t.1) := by
  intro h
  simp only [clearTimeoutW, List.mem_map, List.mem_filter,
    decide_eq_true_eq] at h
  obtain ⟨t, ⟨_, hne⟩, heq⟩ := h
  exact hne heq

theorem cancel_submission_removes (r : Room) (w : World) (tid : Nat)
    (h : r.timers.lookup "submission" = some tid) :
    tid ∉ ((cancelSubmissionTimer r w).2.pending.map (fun t => t.1)) := by
  unfold cancelSubmissionTimer clearTimer
  rw [h]
  exact clearTimeout_id_not_pending w tid

theorem cancelSubmissionTimer_events (r : Room) (w : World) :
    (cancelSubmissionTimer r w).2.events = w.events := by
  unfold cancelSubmissionTimer clearTimer
  cases r.timers.lookup "submission" with
  | none => rfl
  | some id => rfl

/-- The engine's own completion test, evaluated on the room right after the
submission was appended (verbatim the `allSubmitted` computation inside
`submitCard`). -/
def allSubmittedAfter (uuid : String) (r : Room) (pid card : String) : Bool :=
  let room := { r with
    players := updateFirst (fun p => p.id = pid)
      (fun p => { p with hand := p.hand.erase card }) r.players
    submissions := r.submissions ++
      [{ anonymousId := uuid, playerId := pid, card := card, isWinner := false }] }
  let submitters := getSubmitters room
  submitters.all (fun id => room.submissions.any (fun s => s.playerId = id))

theorem cancelSubmissionTimer_id (r : Room) (w : World) :
    (cancelSubmissionTimer r w).1.id = r.id := by
  unfold cancelSubmissionTimer clearTimer
  cases r.timers.lookup "submission" with
  | none => rfl
  | some i => rfl

theorem cancelSubmissionTimer_lookup_none (r : Room) (w : World) :
    ((cancelSubmissionTimer r w).1.timers.lookup "submission") = none :=
  clearTimer_lookup_none r w "submission"

/-- C6: for a room in submitting phase, the `submitCard` call that completes
the set — the engine's completion test `allSubmittedAfter` holds, which is
exactly "every eligible non-hetman player has a submission" over the appended
list — cancels the submission timer (registry entry gone and the armed
timeout, if any, removed from the pending queue), sets the phase to judging,
and broadcasts the submission set anonymized (`AnonymousSubmission` carries
only `anonymousId` and `card`, no `playerId`) in a freshly randomized order
that is a permutation of the arrival order; a successful call that does not
complete the set leaves the phase at submitting and the timer registry
untouched. -/
theorem C6_submit_completion (uuid : String) (shufR : Nat → Nat)
    (r : Room) (w : World) (pid card : String)
    (hok : (submitCard uuid shufR r w pid card).error = none) :
    (allSubmittedAfter uuid r pid card =
      (getSubmitters r).all (fun id =>
        (r.submissions ++ [({ anonymousId := uuid, playerId := pid, card := card, isWinner := false } : Submission)]).any
          (fun s => s.playerId = id))) ∧
    (allSubmittedAfter uuid r pid card = true →
      (submitCard uuid shufR r w pid card).room.phase = GamePhase.judging ∧
      (submitCard uuid shufR r w pid card).room.timers.lookup "submission" =
        none ∧
      (∀ tid, r.timers.lookup "submission" = some tid →
        tid ∉ (submitCard uuid shufR r w pid card).world.pending.map
          (fun t => t.1)) ∧
      (∃ pub, (submitCard uuid shufR r w pid card).world.events =
        w.events ++
          [Sent.toRoom r.id (Msg.submissionReceived (r.submissions.length + 1)),
           Sent.toRoom r.id (Msg.allSubmitted (shuffleDeck shufR
             ((r.submissions ++ [({ anonymousId := uuid, playerId := pid, card := card, isWinner := false } : Submission)]).map
               (fun s => (⟨s.anonymousId, s.card⟩ : AnonymousSubmission))))),
           Sent.toRoom r.id (Msg.roomState pub)]) ∧
      (shuffleDeck shufR
        ((r.submissions ++ [({ anonymousId := uuid, playerId := pid, card := card, isWinner := false } : Submission)]).map
          (fun s => (⟨s.anonymousId, s.card⟩ : AnonymousSubmission)))).Perm
        ((r.submissions ++ [({ anonymousId := uuid, playerId := pid, card := card, isWinner := false } : Submission)]).map
          (fun s => (⟨s.anonymousId, s.card⟩ : AnonymousSubmission)))) ∧
    (allSubmittedAfter uuid r pid card = false →
      (submitCard uuid shufR r w pid card).room.phase = GamePhase.submitting ∧
      (submitCard uuid shufR r w pid card).room.timers = r.timers) := by
  have hchar : allSubmittedAfter uuid r pid card =
      (getSubmitters r).all (fun id =>
        (r.submissions ++ [({ anonymousId := uuid, playerId := pid, card := card, isWinner := false } : Submission)]).any
          (fun s => s.playerId = id)) := by
    unfold allSubmittedAfter getSubmitters
    dsimp only
    rw [filter_map_updateFirst (fun p => decide (p.id = pid))
      (fun p => decide (some p.id ≠ r.hetmanId))
      (fun p => { p with hand := p.hand.erase card })
      (fun p => p.id) (fun a => rfl) (fun a => rfl) r.players]
  refine ⟨hchar, ?_, ?_⟩
  · intro hall
    unfold allSubmittedAfter at hall
    dsimp only at hall
    unfold submitCard at hok ⊢
    by_cases h1 : r.phase ≠ GamePhase.submitting
    · rw [if_pos h1] at hok
      cases hok
    · rw [if_neg h1] at hok ⊢
      cases hfind : r.players.find? (fun p => p.id = pid) with
      | none =>
        rw [hfind] at hok
        cases hok
      | some player =>
        rw [hfind] at hok
        dsimp only at hok ⊢
        by_cases hhet : some pid = r.hetmanId
        · rw [if_pos hhet] at hok
          cases hok
        · rw [if_neg hhet] at hok ⊢
          by_cases hdup : r.submissions.any (fun s => s.playerId = pid) = true
          · rw [if_pos hdup] at hok
            cases hok
          · rw [if_neg hdup] at hok ⊢
            by_cases hhand : ¬ player.hand.contains card = true
            · rw [if_pos hhand] at hok
              cases hok
            · rw [if_neg hhand] at hok ⊢
              split
              · dsimp only
                refine ⟨rfl, cancelSubmissionTimer_lookup_none _ _, ?_, ?_, ?_⟩
                · intro tid htid
                  exact cancel_submission_removes _ _ tid htid
                · simp only [broadcastRoomState, emitRoom,
                    cancelSubmissionTimer_events,
                    cancelSubmissionTimer_submissions, cancelSubmissionTimer_id,
                    List.append_assoc, List.singleton_append, List.cons_append,
                    List.nil_append, List.length_append, List.length_cons,
                    List.length_nil, Nat.zero_add]
                  exact ⟨_, rfl⟩
                · exact shuffleDeck_perm shufR _
              · rename_i hnc
                exact absurd hall hnc
  · intro hall
    unfold allSubmittedAfter at hall
    dsimp only at hall
    unfold submitCard at hok ⊢
    by_cases h1 : r.phase ≠ GamePhase.submitting
    · rw [if_pos h1] at hok
      cases hok
    · rw [if_neg h1] at hok ⊢
      cases hfind : r.players.find? (fun p => p.id = pid) with
      | none =>
        rw [hfind] at hok
        cases hok
      | some player =>
        rw [hfind] at hok
        dsimp only at hok ⊢
        by_cases hhet : some pid = r.hetmanId
        · rw [if_pos hhet] at hok
          cases hok
        · rw [if_neg hhet] at hok ⊢
          by_cases hdup : r.submissions.any (fun s => s.playerId = pid) = true
          · rw [if_pos hdup] at hok
            cases hok
          · rw [if_neg hdup] at hok ⊢
            by_cases hhand : ¬ player.hand.contains card = true
            · rw [if_pos hhand] at hok
              cases hok
            · rw [if_neg hhand] at hok ⊢
              split
              · rename_i hc
                rw [hall] at hc
                cases hc
              · exact ⟨not_not.mp h1, rfl⟩

/-- C6 witness: in the two-player room `wRoomA` (A the hetman, B the only
eligible submitter) B submitting "x" succeeds and completes the set, so the
phase becomes judging. -/
theorem C6_submit_completion_witness :
    allSubmittedAfter "anon1" wRoomA "uB" "x" = true ∧
    (submitCard "anon1" (fun i => i) wRoomA wWorld "uB" "x").room.phase =
      GamePhase.judging :=
  ⟨by decide,
   ((C6_submit_completion "anon1" (fun i => i) wRoomA wWorld "uB" "x"
      (by decide)).2.1 (by decide)).1⟩

theorem C7_endGame_idempotent_witness :
    (endGame (endGame c7Room c7World "time_limit").1
        (endGame c7Room c7World "time_limit").2 "inactivity" =
      endGame c7Room c7World "time_limit") ∧
    gameOverCount (endGame c7Room c7World "time_limit").2.events =
      gameOverCount c7World.events + 1 ∧
    (endGame c7Room c7World "time_limit").1.timers =
      [("cleanup", c7World.nextTimerId)] ∧
    ((endGame c7Room c7World "time_limit").2.pending.filter
       (fun t => c7World.nextTimerId ≤ t.1)) =
      [(c7World.nextTimerId, TimerTag.cleanup)] ∧
    (∀ kv ∈ c7Room.timers, kv.2 ∉
      (endGame c7Room c7World "time_limit").2.pending.map (fun t => t.1)) ∧
    (∀ (r' : Room) (w' : World) (reason' : String),
      r'.phase = GamePhase.gameOver → endGame r' w' reason' = (r', w')) :=
  C7_endGame_idempotent c7Room c7World "time_limit" "inactivity"
    (by decide) (by decide) (by decide) (by decide)

end BadCards
